import Mathlib

/-!
# iotawatt_upload_proxy: the legacy query endpoint of `main.go`

A shallow embedding of the query path of `main.go` (`queryParser`, `parseQuery`,
`queryHandler.ServeHTTP` and the `influxDBV1*` wire structs) together with the
library behaviour that path relies on:

* Go strings are modelled as `String` (sequences of Unicode code points);
* `regexp` is modelled by a backtracking matcher with leftmost-first semantics
  (the semantics `regexp.FindStringSubmatch` documents) over the fragment of
  the syntax that `queryParser` uses;
* `fmt.Sprintf` is modelled for the `%s` verb;
* `model.Time` is an `Int` count of milliseconds, `float64` values are
  modelled by the rational they denote (or an infinity / NaN);
* `encoding/json` is modelled for the three response structs.
-/

namespace IotawattProxy

/-! ## Regular expressions -/

/-- The fragment of `regexp/syntax` that `queryParser` is written in. -/
inductive Regex where
  /-- the empty expression -/
  | empty : Regex
  /-- one character of a class -/
  | cls (p : Char → Bool) : Regex
  /-- beginning of text: `^` without the `m` flag -/
  | bol : Regex
  /-- end of text: `$` without the `m` flag -/
  | eol : Regex
  /-- concatenation -/
  | cat (a b : Regex) : Regex
  /-- zero or one `a`, preferring one: `a?` -/
  | quest (a : Regex) : Regex
  /-- zero or more `a`, preferring more: `a*` -/
  | star (a : Regex) : Regex
  /-- one or more `a`, preferring more: `a+` -/
  | plus (a : Regex) : Regex
  /-- the capturing group number `idx`, named `name` (`(?P<name>a)`) -/
  | cap (idx : Nat) (name : String) (a : Regex) : Regex

/-- A matcher state: the offset reached, the text still to read and the
text captured by each group so far. -/
structure St where
  pos : Nat
  rest : List Char
  caps : List (List Char)

/-- First alternative if it succeeded, otherwise the second. -/
def orTry {α : Type} (a b : Option α) : Option α :=
  match a with
  | some x => some x
  | none => b

/-- Greedy iteration: run `step` as often as possible (each round has to
consume input), then the continuation `k`; `fuel` bounds the rounds and is
taken to be the length of the remaining text. -/
def starLoop (step : (St → Option St) → St → Option St) (k : St → Option St) :
    Nat → St → Option St
  | 0, s => k s
  | n + 1, s =>
    orTry
      (step (fun s' => if s'.rest.length < s.rest.length then starLoop step k n s' else none) s)
      (k s)

/-- Backtracking matcher in continuation-passing style: `r.run k s` is the
first way, in priority order, of matching `r` at `s` such that `k` accepts
the state reached. -/
def Regex.run : Regex → (St → Option St) → St → Option St
  | .empty, k, s => k s
  | .cls p, k, s =>
    match s.rest with
    | [] => none
    | c :: t => if p c then k ⟨s.pos + 1, t, s.caps⟩ else none
  | .bol, k, s => if s.pos = 0 then k s else none
  | .eol, k, s => if s.rest.isEmpty then k s else none
  | .cat a b, k, s => a.run (b.run k) s
  | .quest a, k, s => orTry (a.run k s) (k s)
  | .star a, k, s => starLoop a.run k s.rest.length s
  | .plus a, k, s => a.run (fun s' => starLoop a.run k s'.rest.length s') s
  | .cap idx _ a, k, s =>
    a.run (fun s' => k ⟨s'.pos, s'.rest, s'.caps.set idx (s.rest.take (s'.pos - s.pos))⟩) s

/-- Number of capturing groups of an expression. -/
def Regex.numSubexp : Regex → Nat
  | .cat a b => a.numSubexp + b.numSubexp
  | .quest a => a.numSubexp
  | .star a => a.numSubexp
  | .plus a => a.numSubexp
  | .cap _ _ a => a.numSubexp + 1
  | _ => 0

/-- The groups of an expression as (name, index) pairs, in source order. -/
def Regex.subexps : Regex → List (String × Nat)
  | .cat a b => a.subexps ++ b.subexps
  | .quest a => a.subexps
  | .star a => a.subexps
  | .plus a => a.subexps
  | .cap idx name a => (name, idx) :: a.subexps
  | _ => []

/-- Model of `(*Regexp).SubexpIndex`: the index of the first group with the
given name, or -1. -/
def Regex.SubexpIndex (re : Regex) (name : String) : Int :=
  match re.subexps.find? (fun e => e.1 == name) with
  | some e => e.2
  | none => -1

/-- One match attempt of the whole expression (group 0) at an offset. -/
def Regex.matchAt (re : Regex) (pos : Nat) (rest : List Char) : Option St :=
  (Regex.cap 0 "" re).run some ⟨pos, rest, List.replicate (re.numSubexp + 1) []⟩

/-- Leftmost search: the first offset at which the expression matches. -/
def Regex.findFrom (re : Regex) : Nat → List Char → Option (List (List Char))
  | pos, [] => (re.matchAt pos []).map St.caps
  | pos, c :: t =>
    match re.matchAt pos (c :: t) with
    | some s => some s.caps
    | none => re.findFrom (pos + 1) t

/-- Model of `(*Regexp).FindStringSubmatch`: the text of the leftmost match
and of its groups, or `none` (Go: `nil`) when there is no match. -/
def Regex.FindStringSubmatch (re : Regex) (s : String) : Option (List String) :=
  (re.findFrom 0 s.data).map (fun l => l.map String.mk)

/-- Go slice indexing `xs[i]`; out of range (a run-time panic in Go) is `none`. -/
def index {α : Type} (xs : List α) (i : Int) : Option α :=
  if 0 ≤ i then xs.get? i.toNat else none

/-! ### The pattern of `queryParser` -/

/-- The Perl class `\s` of RE2: `[\t\n\f\r ]`. -/
def isSpace (c : Char) : Bool :=
  c == '\t' || c == '\n' || c == '\x0c' || c == '\r' || c == ' '

/-- The single quote character. -/
def squote : Char := Char.ofNat 39

/-- The double quote character. -/
def dquote : Char := Char.ofNat 34

/-- The class of `.` without the `s` flag: any character but newline. -/
def isDot (c : Char) : Bool := c != '\n'

/-- The class `\S`. -/
def isNonSpace (c : Char) : Bool := !isSpace c

/-- The class `[^\s=]`. -/
def isKeyChar (c : Char) : Bool := !(isSpace c || c == '=')

/-- The class `['"]`. -/
def isQuote (c : Char) : Bool := c == squote || c == dquote

/-- The class `[^\s='"]`. -/
def isValueChar (c : Char) : Bool := !(isSpace c || c == '=' || c == squote || c == dquote)

/-- A literal character. -/
def Regex.chr (c : Char) : Regex := .cls (fun d => d == c)

/-- A literal string. -/
def Regex.lits : List Char → Regex
  | [] => .empty
  | c :: cs => .cat (.chr c) (Regex.lits cs)

/-- The `\s` atom. -/
def Regex.ws : Regex := .cls isSpace

/-- Concatenation of a sequence of expressions. -/
def Regex.seq : List Regex → Regex
  | [] => .empty
  | r :: rs => .cat r (Regex.seq rs)

/-- The pattern of `main.go`, line 27:
`^\s*SELECT\s+LAST\((?P<column>.+)\)\s+FROM\s+(?P<metric>\S+)\s+WHERE\s+(?P<where_key>[^\s=]+)=['"]?(?P<where_value>[^\s='"]+)['"]?\s*$` -/
def queryParser : Regex :=
  Regex.seq [
    .bol, .star .ws, .lits "SELECT".data, .plus .ws, .lits "LAST(".data,
    .cap 1 "column" (.plus (.cls isDot)),
    .chr ')', .plus .ws, .lits "FROM".data, .plus .ws,
    .cap 2 "metric" (.plus (.cls isNonSpace)),
    .plus .ws, .lits "WHERE".data, .plus .ws,
    .cap 3 "where_key" (.plus (.cls isKeyChar)),
    .chr '=', .quest (.cls isQuote),
    .cap 4 "where_value" (.plus (.cls isValueChar)),
    .quest (.cls isQuote), .star .ws, .eol]

/-! ## `parseQuery` -/

/-- The struct `parsedQuery`. -/
structure parsedQuery where
  column : String
  metric : String
  whereKey : String
  whereValue : String
deriving DecidableEq

/-- The message of the error `parseQuery` returns. -/
def invalidQueryFormat : String := "Invalid query format - Failed to match"

/-- The function `parseQuery` of `main.go`. The four indexing expressions
`matches[queryParser.SubexpIndex(..)]` cannot go out of range (the indices
are 1 to 4 and `matches` has five entries); the empty string stands in the
unreachable branch. -/
def parseQuery (query : String) : Except String parsedQuery :=
  match queryParser.FindStringSubmatch query with
  | none => .error invalidQueryFormat
  | some ms =>
    .ok {
      column := (index ms (queryParser.SubexpIndex "column")).getD ""
      metric := (index ms (queryParser.SubexpIndex "metric")).getD ""
      whereKey := (index ms (queryParser.SubexpIndex "where_key")).getD ""
      whereValue := (index ms (queryParser.SubexpIndex "where_value")).getD "" }

/-! ## `fmt.Sprintf` -/

/-- What `fmt` prints for operands left over after the format is used up. -/
def sprintfExtra (args : List String) : List Char :=
  "%!(EXTRA ".data ++ (", ".intercalate (args.map (fun a => "string=" ++ a))).data ++ ")".data

/-- Model of `fmt.Sprintf` for string operands and the verbs `%s`, `%v`
(both print a string operand as it is) and `%%`. -/
def sprintfAux : List Char → List String → List Char
  | [], [] => []
  | [], a :: args => sprintfExtra (a :: args)
  | '%' :: 's' :: fmt, a :: args => a.data ++ sprintfAux fmt args
  | '%' :: 'v' :: fmt, a :: args => a.data ++ sprintfAux fmt args
  | '%' :: 's' :: fmt, [] => "%!s(MISSING)".data ++ sprintfAux fmt []
  | '%' :: 'v' :: fmt, [] => "%!v(MISSING)".data ++ sprintfAux fmt []
  | '%' :: '%' :: fmt, args => '%' :: sprintfAux fmt args
  | c :: fmt, args => c :: sprintfAux fmt args

/-- Model of `fmt.Sprintf(format, args...)`. -/
def Sprintf (format : String) (args : List String) : String :=
  ⟨sprintfAux format.data args⟩

/-- The backend query of `ServeHTTP` (`main.go`, line 208). -/
def promQuery (query : parsedQuery) (db : String) : String :=
  Sprintf "last_over_time(%s_%s\x7bdb=\"%s\", %s=\"%s\"\x7d[1y])"
    [query.metric, query.column, db, query.whereKey, query.whereValue]

/-! ## Backend results (`prometheus/common/model`) -/

/-- A `float64`, modelled by the value it denotes (negative zero is not told
apart from zero). -/
inductive Float64 where
  | finite (q : ℚ) : Float64
  | posInf : Float64
  | negInf : Float64
  | nan : Float64
deriving DecidableEq

/-- Number of low bits that `a` has beyond the 53 bits of a `float64`
significand (`fuel` bounds the count; `a` itself is enough). -/
def excessBits : Nat → Nat → Nat
  | 0, _ => 0
  | fuel + 1, a => if a < 2 ^ 53 then 0 else excessBits fuel (a / 2) + 1

/-- Rounding of an integer to 53 significant bits, ties to even: the integer
denoted by the result of the conversion `float64(n)`. -/
def roundInt53 (n : Int) : Int :=
  let a := n.natAbs
  if a < 2 ^ 53 then n
  else
    let e := excessBits a a
    let q := a / 2 ^ e
    let r := a % 2 ^ e
    let half := 2 ^ (e - 1)
    let q' := if half < r ∨ (r = half ∧ q % 2 = 1) then q + 1 else q
    Int.sign n * ((q' * 2 ^ e : Nat) : Int)

/-- The conversion `float64(n)` of an `int64`. -/
def Float64.ofInt64 (n : Int) : Float64 := .finite (roundInt53 n)

/-- Model of `model.Time.Unix`: `int64(t) / second` with `second = 1000`;
Go's integer division truncates toward zero. -/
def Unix (t : Int) : Int := Int.tdiv t 1000

/-- The struct `model.Sample` (its label set plays no role here). -/
structure Sample where
  Timestamp : Int
  Value : Float64
deriving DecidableEq

/-- The implementations of the interface `model.Value`. -/
inductive Value where
  | Scalar (ts : Int) (v : Float64) : Value
  | Vector (samples : List Sample) : Value
  | Matrix (streams : List (List Sample)) : Value
  | Str (ts : Int) (v : String) : Value

/-- Model of `model.Value.Type()` printed with `%s` (`ValueType.String`). -/
def Value.TypeName : Value → String
  | .Scalar _ _ => "scalar"
  | .Vector _ => "vector"
  | .Matrix _ => "matrix"
  | .Str _ _ => "string"

/-! ## The legacy wire structs -/

/-- The struct `influxDBV1Series`. -/
structure influxDBV1Series where
  Name : String
  Columns : List String
  Values : List (List Float64)
deriving DecidableEq

/-- The struct `influxDBV1Result`; `Series = none` is the nil slice. -/
structure influxDBV1Result where
  StatementID : Int
  Series : Option (List influxDBV1Series)
deriving DecidableEq

/-- The struct `influxDBV1Response`. -/
structure influxDBV1Response where
  Results : List influxDBV1Result
deriving DecidableEq

/-- The message of the error for a vector of more than one sample. -/
def ambiguousResult : String := "Upstream query returned more than one value"

/-- The response built at the end of the closure (`main.go`, lines 246-267). -/
def seriesResponse (query : parsedQuery) (timestamp value : Float64) : influxDBV1Response :=
  { Results := [
      { StatementID := 0,
        Series := some [
          { Name := query.metric,
            Columns := ["time", "last"],
            Values := [[timestamp, value]] }] }] }

/-- The closure of `ServeHTTP` computing `influxResponse` (`main.go`, lines
215-268) from the parsed query and the backend result. The last branch of
the vector case stands for `respTyped[0]` on an empty vector, which the two
length tests before it exclude. -/
def responseAdapter (query : parsedQuery) (resp : Value) : Except String influxDBV1Response :=
  match resp with
  | .Scalar ts v => .ok (seriesResponse query (Float64.ofInt64 (Unix ts)) v)
  | .Vector respTyped =>
    if respTyped.length = 0 then
      .ok { Results := [{ StatementID := 0, Series := none }] }
    else if respTyped.length > 1 then
      .error ambiguousResult
    else
      match respTyped with
      | s :: _ => .ok (seriesResponse query (Float64.ofInt64 (Unix s.Timestamp)) s.Value)
      | [] => .error ambiguousResult
  | other =>
    .error (Sprintf "Upstream response was not a scalar or vector - Actual type: %s"
      [other.TypeName])

/-! ## `encoding/json` for the wire structs -/

/-- The backslash character. -/
def backslash : Char := Char.ofNat 92

/-- A hexadecimal digit. -/
def hexDigit (n : Nat) : Char := "0123456789abcdef".data.getD n '0'

/-- The escape `\uXXXX` of a code point below 0x10000. -/
def unicodeEscape (n : Nat) : List Char :=
  [backslash, 'u', hexDigit (n / 4096 % 16), hexDigit (n / 256 % 16), hexDigit (n / 16 % 16),
    hexDigit (n % 16)]

/-- How the encoder writes one character of a string (HTML escaping is on by
default in `json.Encoder`). -/
def escapeChar (c : Char) : List Char :=
  if c == dquote || c == backslash then [backslash, c]
  else if c == '\x08' then [backslash, 'b']
  else if c == '\x0c' then [backslash, 'f']
  else if c == '\n' then [backslash, 'n']
  else if c == '\r' then [backslash, 'r']
  else if c == '\t' then [backslash, 't']
  else if c.toNat < 32 || c == '<' || c == '>' || c == '&' || c.toNat = 8232 || c.toNat = 8233 then
    unicodeEscape c.toNat
  else [c]

/-- JSON encoding of a string. -/
def encodeString (s : String) : String :=
  ⟨dquote :: (s.data.flatMap escapeChar ++ [dquote])⟩

/-- JSON encoding of a `float64`: NaN and the infinities are an encoding
error (`none`); `formatFloat` stands for the digits `strconv` produces for a
finite value. -/
def encodeFloat (formatFloat : ℚ → String) : Float64 → Option String
  | .finite q => some (formatFloat q)
  | _ => none

/-- Encodings of the elements of a slice, failing if one of them fails. -/
def encodeAll {α : Type} (enc : α → Option String) : List α → Option (List String)
  | [] => some []
  | x :: xs =>
    match enc x, encodeAll enc xs with
    | some a, some as => some (a :: as)
    | _, _ => none

/-- JSON array of already encoded elements. -/
def jsonArray (elems : List String) : String := "[" ++ ",".intercalate elems ++ "]"

/-- JSON encoding of `influxDBV1Series` (keys `name`, `columns`, `values`). -/
def encodeSeries (formatFloat : ℚ → String) (s : influxDBV1Series) : Option String :=
  match encodeAll (fun row => (encodeAll (encodeFloat formatFloat) row).map jsonArray) s.Values with
  | none => none
  | some rows =>
    some ("\x7b\"name\":" ++ encodeString s.Name ++ ",\"columns\":" ++
      jsonArray (s.Columns.map encodeString) ++ ",\"values\":" ++ jsonArray rows ++ "\x7d")

/-- JSON encoding of `influxDBV1Result` (keys `statement_id`, `series`; the
tags carry no `omitempty`, so a nil `Series` is written as `null`). -/
def encodeResult (formatFloat : ℚ → String) (r : influxDBV1Result) : Option String :=
  let series : Option String :=
    match r.Series with
    | none => some "null"
    | some l => (encodeAll (encodeSeries formatFloat) l).map jsonArray
  match series with
  | none => none
  | some js =>
    some ("\x7b\"statement_id\":" ++ toString r.StatementID ++ ",\"series\":" ++ js ++ "\x7d")

/-- JSON encoding of `influxDBV1Response` (key `results`). -/
def encodeResponse (formatFloat : ℚ → String) (r : influxDBV1Response) : Option String :=
  (encodeAll (encodeResult formatFloat) r.Results).map
    (fun rs => "\x7b\"results\":" ++ jsonArray rs ++ "\x7d")

/-! ## The handler -/

/-- The form of a request after `r.ParseForm()`: the error it returned, if
any, and the map `r.Form`. -/
structure Request where
  ParseForm : Option String
  Form : List (String × List String)

/-- The calls a handler run makes to the parser and to the backend client. -/
inductive Call where
  | parseQuery (query : String) : Call
  | Query (query : String) : Call
deriving DecidableEq

/-- What the client gets: a response with a status and a body, an aborted
response (`panic(http.ErrAbortHandler)` after `WriteHeader`), or a handler
that died of a run-time panic. -/
inductive Outcome where
  | reply (status : Nat) (body : String) : Outcome
  | aborted (status : Nat) : Outcome
  | panicked : Outcome
deriving DecidableEq

/-- The constant `http.StatusOK`. -/
def StatusOK : Nat := 200

/-- The constant `http.StatusBadRequest`. -/
def StatusBadRequest : Nat := 400

/-- The constant `http.StatusInternalServerError`. -/
def StatusInternalServerError : Nat := 500

/-- Model of `http.Error`: the status and the message followed by a newline. -/
def httpError (error : String) (code : Nat) : Outcome := .reply code (error ++ "\n")

/-- The struct `queryHandler`. Of its fields only the backend client matters
here; it is modelled by its method `Query`, from the query string to the
result or to the message of the error. -/
structure queryHandler where
  prometheusAPI : String → Except String Value

/-- The method `queryHandler.ServeHTTP` of `main.go`: the calls made and the
outcome, given the float formatter of the encoder. Logging is left out. -/
def queryHandler.ServeHTTP (h : queryHandler) (formatFloat : ℚ → String) (r : Request) :
    List Call × Outcome :=
  match r.ParseForm with
  | some err =>
    ([], httpError (Sprintf "failed to parse query data - %v" [err]) StatusInternalServerError)
  | none =>
  match r.Form.lookup "db" with
  | none => ([], httpError "Missing `db` field in form data" StatusBadRequest)
  | some db =>
  match r.Form.lookup "epoch" with
  | none => ([], httpError "Missing `epoch` field in form data" StatusBadRequest)
  | some epoch =>
  match index epoch 0 with
  | none => ([], .panicked)
  | some epoch0 =>
  if epoch0 != "s" then
    ([], httpError "Invalid `epoch` field value in form data" StatusBadRequest)
  else
  match r.Form.lookup "q" with
  | none => ([], httpError "Missing `q` field in form data" StatusBadRequest)
  | some queryStr =>
  match index queryStr 0 with
  | none => ([], .panicked)
  | some q =>
  match parseQuery q with
  | .error err => ([.parseQuery q], httpError err StatusBadRequest)
  | .ok query =>
  match index db 0 with
  | none => ([.parseQuery q], .panicked)
  | some db0 =>
  match h.prometheusAPI (promQuery query db0) with
  | .error err =>
    ([.parseQuery q, .Query (promQuery query db0)],
      httpError (Sprintf "Failed to query upstream - %s" [err]) StatusInternalServerError)
  | .ok resp =>
  match responseAdapter query resp with
  | .error err =>
    ([.parseQuery q, .Query (promQuery query db0)], httpError err StatusInternalServerError)
  | .ok influxResponse =>
  match encodeResponse formatFloat influxResponse with
  | none => ([.parseQuery q, .Query (promQuery query db0)], .aborted StatusOK)
  | some json => ([.parseQuery q, .Query (promQuery query db0)], .reply StatusOK (json ++ "\n"))


/-! ## Declarative semantics of the matcher -/

/-- Iteration of a step relation, every step consuming input. -/
inductive Iter (R : St → St → Prop) : St → St → Prop where
  | done (s : St) : Iter R s s
  | step {s m t : St} : R s m → m.rest.length < s.rest.length → Iter R m t → Iter R s t

/-- The states `t` that an expression can reach from `s`, whatever the
priorities: `r.Matches s t` holds when `r` matches the text between `s` and
`t` and sets the groups as in `t`. -/
def Regex.Matches : Regex → St → St → Prop
  | .empty, s, t => t = s
  | .cls p, s, t => ∃ c r, s.rest = c :: r ∧ p c = true ∧ t = ⟨s.pos + 1, r, s.caps⟩
  | .bol, s, t => s.pos = 0 ∧ t = s
  | .eol, s, t => s.rest = [] ∧ t = s
  | .cat a b, s, t => ∃ m, a.Matches s m ∧ b.Matches m t
  | .quest a, s, t => a.Matches s t ∨ t = s
  | .star a, s, t => Iter a.Matches s t
  | .plus a, s, t => ∃ m, a.Matches s m ∧ Iter a.Matches m t
  | .cap idx _ a, s, t =>
    ∃ m, a.Matches s m ∧ t = ⟨m.pos, m.rest, m.caps.set idx (s.rest.take (m.pos - s.pos))⟩

/-! ## Requests used to state the properties -/

/-- The request of the end-to-end scenarios of the specification. -/
def scenarioRequest : Request :=
  ⟨none, [("db", ["mydb"]), ("epoch", ["s"]),
    ("q", ["SELECT LAST(value) FROM cpu WHERE host='a'"])]⟩

/-- The handler whose backend answers every query with a vector without
samples, as in scenario 2. -/
def emptyBackend : queryHandler := ⟨fun _ => .ok (.Vector [])⟩

/-- The parsed query of the end-to-end scenarios. -/
def scenarioQuery : parsedQuery := ⟨"value", "cpu", "host", "a"⟩

/-- A request passes the form checks of the handler with database `db`,
query text `q` and parsed query `query`. -/
def ValidRequest (r : Request) (db q : String) (query : parsedQuery) : Prop :=
  r.ParseForm = none ∧ (∃ dbs, r.Form.lookup "db" = some (db :: dbs)) ∧
  (∃ es, r.Form.lookup "epoch" = some ("s" :: es)) ∧
  (∃ qs, r.Form.lookup "q" = some (q :: qs)) ∧ parseQuery q = .ok query

/-- What the handler does once the backend has answered. -/
def finish (formatFloat : ℚ → String) (query : parsedQuery) :
    Except String Value → Outcome
  | .error err =>
    httpError (Sprintf "Failed to query upstream - %s" [err]) StatusInternalServerError
  | .ok resp =>
    match responseAdapter query resp with
    | .error err => httpError err StatusInternalServerError
    | .ok influxResponse =>
      match encodeResponse formatFloat influxResponse with
      | none => .aborted StatusOK
      | some json => .reply StatusOK (json ++ "\n")


/-! ## The shape of the texts the pattern matches -/

/-- All characters of `w` are in the class `P`. -/
def Many (P : Char → Bool) (w : List Char) : Prop := ∀ c ∈ w, P c = true

/-- The text `w` is not empty and all its characters are in the class `P`. -/
def Many1 (P : Char → Bool) (w : List Char) : Prop := w ≠ [] ∧ Many P w

/-- The text `w` is empty or a single character of the class `P`. -/
def Opt (P : Char → Bool) (w : List Char) : Prop := w = [] ∨ ∃ c, P c = true ∧ w = [c]

/-- The text `L` starts with a character outside the class `P`. -/
def HeadNot (P : Char → Bool) (L : List Char) : Prop := ∃ x r, L = x :: r ∧ P x = false

/-- The variable pieces of a text of the shape of the pattern: the runs of
whitespace, the four captured texts and the two optional quotes. -/
structure Parts where
  ws0 : List Char
  ws1 : List Char
  col : List Char
  ws2 : List Char
  ws3 : List Char
  met : List Char
  ws4 : List Char
  ws5 : List Char
  key : List Char
  q1 : List Char
  val : List Char
  q2 : List Char
  ws6 : List Char

/-- The text made of the pieces and of the literals of the pattern. -/
def Parts.text (p : Parts) : List Char :=
  p.ws0 ++ ("SELECT".data ++ (p.ws1 ++ ("LAST(".data ++ (p.col ++ (')' :: (p.ws2 ++
    ("FROM".data ++ (p.ws3 ++ (p.met ++ (p.ws4 ++ ("WHERE".data ++ (p.ws5 ++ (p.key ++
      ('=' :: (p.q1 ++ (p.val ++ (p.q2 ++ p.ws6)))))))))))))))))

/-- Every piece is in the class that the pattern gives it. -/
structure Parts.WF (p : Parts) : Prop where
  ws0 : Many isSpace p.ws0
  ws1 : Many1 isSpace p.ws1
  col : Many1 isDot p.col
  ws2 : Many1 isSpace p.ws2
  ws3 : Many1 isSpace p.ws3
  met : Many1 isNonSpace p.met
  ws4 : Many1 isSpace p.ws4
  ws5 : Many1 isSpace p.ws5
  key : Many1 isKeyChar p.key
  q1 : Opt isQuote p.q1
  val : Many1 isValueChar p.val
  q2 : Opt isQuote p.q2
  ws6 : Many isSpace p.ws6

/-- The parsed query that the pieces give. -/
def Parts.query (p : Parts) : parsedQuery :=
  ⟨⟨p.col⟩, ⟨p.met⟩, ⟨p.key⟩, ⟨p.val⟩⟩

/-- The reversed text of the pieces up to the whitespace before `FROM`. -/
def Parts.revBeforeFrom (p : Parts) : List Char :=
  p.ws2.reverse ++ (')' :: (p.col.reverse ++ ('(' :: 'T' :: 'S' :: 'A' :: 'L' ::
    (p.ws1.reverse ++ ('T' :: 'C' :: 'E' :: 'L' :: 'E' :: 'S' :: p.ws0.reverse)))))

/-- The reversed text of the pieces up to the whitespace before `WHERE`. -/
def Parts.revBeforeWhere (p : Parts) : List Char :=
  p.ws4.reverse ++ (p.met.reverse ++ (p.ws3.reverse ++
    ('M' :: 'O' :: 'R' :: 'F' :: p.revBeforeFrom)))

/-- The reversed text of the pieces up to the whitespace before the key. -/
def Parts.revBeforeKey (p : Parts) : List Char :=
  p.ws5.reverse ++ ('E' :: 'R' :: 'E' :: 'H' :: 'W' :: p.revBeforeWhere)

/-! ## Further notions used to state the properties -/

/-- The two results of the Go function `parseQuery`: the struct, which is the
zero value `parsedQuery{}` next to an error (`main.go`, line 155), and the
message of the error, if any. -/
def parseQueryReturn (query : String) : parsedQuery × Option String :=
  match parseQuery query with
  | .error e => (⟨"", "", "", ""⟩, some e)
  | .ok q => (q, none)

/-- The text `l` starts with the text `w`. -/
def startsWith : List Char → List Char → Bool
  | [], _ => true
  | _ :: _, [] => false
  | c :: w, d :: l => c == d && startsWith w l

/-- The text `w` occurs somewhere in the text `l`. -/
def occursIn (w : List Char) : List Char → Bool
  | [] => startsWith w []
  | d :: l => startsWith w (d :: l) || occursIn w l

/-- The text starts with optional whitespace, `SELECT`, whitespace and
`LAST(`. -/
def startsSelectLast (l : List Char) : Bool :=
  startsWith "SELECT".data (l.dropWhile isSpace) &&
    (match (l.dropWhile isSpace).drop 6 with
     | [] => false
     | c :: r => isSpace c && startsWith "LAST(".data (r.dropWhile isSpace))

/-- A `float64` that is neither NaN nor an infinity. -/
def Float64.isFinite : Float64 → Bool
  | .finite _ => true
  | _ => false

/-- The handler whose backend answers every query with a vector of one
sample whose value is NaN. -/
def nanBackend : queryHandler := ⟨fun _ => .ok (.Vector [⟨1700000000000, .nan⟩])⟩

/-! ## The matcher against its declarative semantics -/

theorem orTry_eq_some {α : Type} {a b : Option α} {x : α} (h : orTry a b = some x) :
    a = some x ∨ (a = none ∧ b = some x) := by
  cases a with
  | none => exact Or.inr ⟨rfl, h⟩
  | some y => exact Or.inl h

theorem orTry_some_left {α : Type} {a b : Option α} {y : α} (h : a = some y) :
    ∃ z, orTry a b = some z := by
  subst h; exact ⟨y, rfl⟩

theorem orTry_some_right {α : Type} {a b : Option α} {y : α} (h : b = some y) :
    ∃ z, orTry a b = some z := by
  cases a with
  | none => exact ⟨y, h⟩
  | some x => exact ⟨x, rfl⟩

theorem starLoop_sound {step : (St → Option St) → St → Option St} {R : St → St → Prop}
    (hstep : ∀ k s x, step k s = some x → ∃ t, R s t ∧ k t = some x)
    (k : St → Option St) :
    ∀ (n : Nat) (s x : St), starLoop step k n s = some x → ∃ t, Iter R s t ∧ k t = some x := by
  intro n
  induction n with
  | zero => intro s x h; exact ⟨s, Iter.done s, h⟩
  | succ n ih =>
    intro s x h
    rw [starLoop] at h
    rcases orTry_eq_some h with h1 | ⟨_, h2⟩
    · obtain ⟨m, hm, hk⟩ := hstep _ _ _ h1
      by_cases hp : m.rest.length < s.rest.length
      · rw [if_pos hp] at hk
        obtain ⟨t, ht, hkt⟩ := ih m x hk
        exact ⟨t, Iter.step hm hp ht, hkt⟩
      · rw [if_neg hp] at hk
        cases hk
    · exact ⟨s, Iter.done s, h2⟩

theorem starLoop_complete {step : (St → Option St) → St → Option St} {R : St → St → Prop}
    (hstep : ∀ k s t x, R s t → k t = some x → ∃ y, step k s = some y)
    (k : St → Option St) {s t : St} (h : Iter R s t) :
    ∀ (n : Nat) (x : St), s.rest.length ≤ n → k t = some x →
      ∃ y, starLoop step k n s = some y := by
  induction h with
  | done s =>
    intro n x _ hk
    cases n with
    | zero => exact ⟨x, hk⟩
    | succ n => rw [starLoop]; exact orTry_some_right hk
  | @step s m t hm hp _ ih =>
    intro n x hn hk
    cases n with
    | zero => omega
    | succ n =>
      rw [starLoop]
      obtain ⟨y, hy⟩ := ih n x (by omega) hk
      have hk' : (fun s' : St =>
          if s'.rest.length < s.rest.length then starLoop step k n s' else none) m = some y := by
        simp only [if_pos hp, hy]
      obtain ⟨z, hz⟩ := hstep (fun s' : St =>
          if s'.rest.length < s.rest.length then starLoop step k n s' else none) s m y hm hk'
      exact orTry_some_left hz

/-- Soundness of the matcher: a result comes from a match of the expression
that the continuation accepts. -/
theorem run_sound (r : Regex) :
    ∀ (k : St → Option St) (s x : St), r.run k s = some x →
      ∃ t, r.Matches s t ∧ k t = some x := by
  induction r with
  | empty => intro k s x h; exact ⟨s, rfl, h⟩
  | cls p =>
    intro k s x h
    simp only [Regex.run] at h
    split at h
    · cases h
    · rename_i c t hs
      by_cases hp : p c = true
      · rw [if_pos hp] at h
        exact ⟨_, ⟨c, t, hs, hp, rfl⟩, h⟩
      · rw [if_neg hp] at h; cases h
  | bol =>
    intro k s x h
    simp only [Regex.run] at h
    by_cases hp : s.pos = 0
    · rw [if_pos hp] at h; exact ⟨s, ⟨hp, rfl⟩, h⟩
    · rw [if_neg hp] at h; cases h
  | eol =>
    intro k s x h
    simp only [Regex.run] at h
    by_cases hp : s.rest.isEmpty = true
    · rw [if_pos hp] at h; exact ⟨s, ⟨List.isEmpty_iff.mp hp, rfl⟩, h⟩
    · rw [if_neg hp] at h; cases h
  | cat a b iha ihb =>
    intro k s x h
    simp only [Regex.run] at h
    obtain ⟨m, hm, hk⟩ := iha _ _ _ h
    obtain ⟨t, ht, hkt⟩ := ihb _ _ _ hk
    exact ⟨t, ⟨m, hm, ht⟩, hkt⟩
  | quest a iha =>
    intro k s x h
    simp only [Regex.run] at h
    rcases orTry_eq_some h with h1 | ⟨_, h2⟩
    · obtain ⟨t, ht, hkt⟩ := iha _ _ _ h1
      exact ⟨t, Or.inl ht, hkt⟩
    · exact ⟨s, Or.inr rfl, h2⟩
  | star a iha =>
    intro k s x h
    simp only [Regex.run] at h
    exact starLoop_sound iha k _ s x h
  | plus a iha =>
    intro k s x h
    simp only [Regex.run] at h
    obtain ⟨m, hm, hk⟩ := iha _ _ _ h
    obtain ⟨t, ht, hkt⟩ := starLoop_sound iha k _ m x hk
    exact ⟨t, ⟨m, hm, ht⟩, hkt⟩
  | cap idx name a iha =>
    intro k s x h
    simp only [Regex.run] at h
    obtain ⟨m, hm, hk⟩ := iha _ _ _ h
    exact ⟨_, ⟨m, hm, rfl⟩, hk⟩

/-- Completeness of the matcher: if the expression has a match that the
continuation accepts, the matcher returns a result. -/
theorem run_complete (r : Regex) :
    ∀ (k : St → Option St) (s t x : St), r.Matches s t → k t = some x →
      ∃ y, r.run k s = some y := by
  induction r with
  | empty => intro k s t x h hk; cases h; exact ⟨x, hk⟩
  | cls p =>
    intro k s t x h hk
    obtain ⟨c, r, hs, hp, rfl⟩ := h
    simp only [Regex.run, hs, hp, if_true]
    exact ⟨x, hk⟩
  | bol =>
    intro k s t x h hk
    obtain ⟨hp, rfl⟩ := h
    simp only [Regex.run, hp, if_true]
    exact ⟨x, hk⟩
  | eol =>
    intro k s t x h hk
    obtain ⟨hp, rfl⟩ := h
    simp only [Regex.run, hp, List.isEmpty_nil, if_true]
    exact ⟨x, hk⟩
  | cat a b iha ihb =>
    intro k s t x h hk
    obtain ⟨m, hm, ht⟩ := h
    simp only [Regex.run]
    obtain ⟨y, hy⟩ := ihb k m t x ht hk
    exact iha _ s m y hm hy
  | quest a iha =>
    intro k s t x h hk
    simp only [Regex.run]
    rcases h with h | rfl
    · obtain ⟨y, hy⟩ := iha k s t x h hk
      exact orTry_some_left hy
    · exact orTry_some_right hk
  | star a iha =>
    intro k s t x h hk
    simp only [Regex.run]
    exact starLoop_complete iha k h _ x (le_refl _) hk
  | plus a iha =>
    intro k s t x h hk
    obtain ⟨m, hm, ht⟩ := h
    simp only [Regex.run]
    obtain ⟨y, hy⟩ := starLoop_complete iha k ht m.rest.length x (le_refl _) hk
    exact iha _ s m y hm hy
  | cap idx name a iha =>
    intro k s t x h hk
    obtain ⟨m, hm, rfl⟩ := h
    simp only [Regex.run]
    exact iha _ s m x hm hk

/-! ### The pieces of the pattern -/

theorem cls_elim {p : Char → Bool} {s t : St} (h : (Regex.cls p).Matches s t) :
    ∃ c, p c = true ∧ s.rest = c :: t.rest ∧ t.pos = s.pos + 1 ∧ t.caps = s.caps := by
  obtain ⟨c, r, hs, hp, rfl⟩ := h
  exact ⟨c, hp, hs, rfl, rfl⟩

theorem chr_elim {c : Char} {s t : St} (h : (Regex.chr c).Matches s t) :
    s.rest = c :: t.rest ∧ t.pos = s.pos + 1 ∧ t.caps = s.caps := by
  obtain ⟨d, hd, hs, hp, hc⟩ := cls_elim h
  have : d = c := by simpa using hd
  subst this
  exact ⟨hs, hp, hc⟩

theorem lits_elim : ∀ (w : List Char) {s t : St}, (Regex.lits w).Matches s t →
    s.rest = w ++ t.rest ∧ t.pos = s.pos + w.length ∧ t.caps = s.caps := by
  intro w
  induction w with
  | nil => intro s t h; cases h; exact ⟨rfl, rfl, rfl⟩
  | cons c w ih =>
    intro s t h
    obtain ⟨m, h1, h2⟩ := h
    obtain ⟨a1, a2, a3⟩ := chr_elim h1
    obtain ⟨b1, b2, b3⟩ := ih h2
    refine ⟨?_, ?_, ?_⟩
    · rw [a1, b1]; rfl
    · rw [b2, a2, List.length_cons]; omega
    · rw [b3, a3]

theorem iter_cls_elim {p : Char → Bool} {s t : St} (h : Iter (Regex.cls p).Matches s t) :
    ∃ w, Many p w ∧ s.rest = w ++ t.rest ∧ t.pos = s.pos + w.length ∧ t.caps = s.caps := by
  induction h with
  | done s => exact ⟨[], fun _ hc => (by cases hc), rfl, rfl, rfl⟩
  | @step s m t hm _ _ ih =>
    obtain ⟨c, hc, a1, a2, a3⟩ := cls_elim hm
    obtain ⟨w, hw, b1, b2, b3⟩ := ih
    refine ⟨c :: w, ?_, ?_, ?_, ?_⟩
    · intro d hd
      rcases List.mem_cons.mp hd with rfl | hd
      · exact hc
      · exact hw d hd
    · rw [a1, b1]; rfl
    · rw [b2, a2, List.length_cons]; omega
    · rw [b3, a3]

theorem star_cls_elim {p : Char → Bool} {s t : St} (h : (Regex.star (.cls p)).Matches s t) :
    ∃ w, Many p w ∧ s.rest = w ++ t.rest ∧ t.pos = s.pos + w.length ∧ t.caps = s.caps :=
  iter_cls_elim h

theorem plus_cls_elim {p : Char → Bool} {s t : St} (h : (Regex.plus (.cls p)).Matches s t) :
    ∃ w, Many1 p w ∧ s.rest = w ++ t.rest ∧ t.pos = s.pos + w.length ∧ t.caps = s.caps := by
  obtain ⟨m, hm, hi⟩ := h
  obtain ⟨c, hc, a1, a2, a3⟩ := cls_elim hm
  obtain ⟨w, hw, b1, b2, b3⟩ := iter_cls_elim hi
  refine ⟨c :: w, ⟨List.cons_ne_nil c w, ?_⟩, ?_, ?_, ?_⟩
  · intro d hd
    rcases List.mem_cons.mp hd with rfl | hd
    · exact hc
    · exact hw d hd
  · rw [a1, b1]; rfl
  · rw [b2, a2, List.length_cons]; omega
  · rw [b3, a3]

theorem quest_cls_elim {p : Char → Bool} {s t : St} (h : (Regex.quest (.cls p)).Matches s t) :
    ∃ w, Opt p w ∧ s.rest = w ++ t.rest ∧ t.pos = s.pos + w.length ∧ t.caps = s.caps := by
  rcases h with h | rfl
  · obtain ⟨c, hc, a1, a2, a3⟩ := cls_elim h
    exact ⟨[c], Or.inr ⟨c, hc, rfl⟩, a1, a2, a3⟩
  · exact ⟨[], Or.inl rfl, rfl, rfl, rfl⟩

theorem cap_plus_cls_elim {p : Char → Bool} {idx : Nat} {name : String} {s t : St}
    (h : (Regex.cap idx name (.plus (.cls p))).Matches s t) :
    ∃ w, Many1 p w ∧ s.rest = w ++ t.rest ∧ t.pos = s.pos + w.length ∧
      t.caps = s.caps.set idx w := by
  obtain ⟨m, hm, rfl⟩ := h
  obtain ⟨w, hw, b1, b2, b3⟩ := plus_cls_elim hm
  refine ⟨w, hw, b1, b2, ?_⟩
  simp only [b1, b2, b3, Nat.add_sub_cancel_left, List.take_left]

theorem cls_intro {p : Char → Bool} {c : Char} (hc : p c = true) (n : Nat) (r : List Char)
    (cs : List (List Char)) : (Regex.cls p).Matches ⟨n, c :: r, cs⟩ ⟨n + 1, r, cs⟩ :=
  ⟨c, r, rfl, hc, rfl⟩

theorem chr_intro (c : Char) (n : Nat) (r : List Char) (cs : List (List Char)) :
    (Regex.chr c).Matches ⟨n, c :: r, cs⟩ ⟨n + 1, r, cs⟩ :=
  cls_intro (by simp) n r cs

theorem lits_intro : ∀ (w : List Char) (n : Nat) (r : List Char) (cs : List (List Char)),
    (Regex.lits w).Matches ⟨n, w ++ r, cs⟩ ⟨n + w.length, r, cs⟩ := by
  intro w
  induction w with
  | nil => intro n r cs; rfl
  | cons c w ih =>
    intro n r cs
    have e : n + (c :: w).length = n + 1 + w.length := by rw [List.length_cons]; omega
    rw [e]
    exact ⟨_, chr_intro c n (w ++ r) cs, ih (n + 1) r cs⟩

theorem iter_cls_intro {p : Char → Bool} : ∀ (w : List Char), Many p w →
    ∀ (n : Nat) (r : List Char) (cs : List (List Char)),
      Iter (Regex.cls p).Matches ⟨n, w ++ r, cs⟩ ⟨n + w.length, r, cs⟩ := by
  intro w
  induction w with
  | nil => intro _ n r cs; exact Iter.done _
  | cons c w ih =>
    intro hw n r cs
    have e : n + (c :: w).length = n + 1 + w.length := by rw [List.length_cons]; omega
    rw [e]
    refine Iter.step (cls_intro (hw c (List.mem_cons_self c w)) n (w ++ r) cs) ?_
      (ih (fun d hd => hw d (List.mem_cons_of_mem c hd)) (n + 1) r cs)
    simp

theorem star_cls_intro {p : Char → Bool} {w : List Char} (hw : Many p w) (n : Nat)
    (r : List Char) (cs : List (List Char)) :
    (Regex.star (.cls p)).Matches ⟨n, w ++ r, cs⟩ ⟨n + w.length, r, cs⟩ :=
  iter_cls_intro w hw n r cs

theorem plus_cls_intro {p : Char → Bool} {w : List Char} (hw : Many1 p w) (n : Nat)
    (r : List Char) (cs : List (List Char)) :
    (Regex.plus (.cls p)).Matches ⟨n, w ++ r, cs⟩ ⟨n + w.length, r, cs⟩ := by
  obtain ⟨hne, hall⟩ := hw
  cases w with
  | nil => exact absurd rfl hne
  | cons c w =>
    have e : n + (c :: w).length = n + 1 + w.length := by rw [List.length_cons]; omega
    rw [e]
    exact ⟨_, cls_intro (hall c (List.mem_cons_self c w)) n (w ++ r) cs,
      iter_cls_intro w (fun d hd => hall d (List.mem_cons_of_mem c hd)) (n + 1) r cs⟩

theorem quest_cls_intro {p : Char → Bool} {w : List Char} (hw : Opt p w) (n : Nat)
    (r : List Char) (cs : List (List Char)) :
    (Regex.quest (.cls p)).Matches ⟨n, w ++ r, cs⟩ ⟨n + w.length, r, cs⟩ := by
  rcases hw with rfl | ⟨c, hc, rfl⟩
  · exact Or.inr rfl
  · exact Or.inl (cls_intro hc n r cs)

theorem cap_plus_cls_intro {p : Char → Bool} {w : List Char} (hw : Many1 p w) (idx : Nat)
    (name : String) (n : Nat) (r : List Char) (cs : List (List Char)) :
    (Regex.cap idx name (.plus (.cls p))).Matches ⟨n, w ++ r, cs⟩
      ⟨n + w.length, r, cs.set idx w⟩ := by
  refine ⟨_, plus_cls_intro hw n r cs, ?_⟩
  simp only [Nat.add_sub_cancel_left, List.take_left]

theorem cat_intro {a b : Regex} {s m t : St} (ha : a.Matches s m) (hb : b.Matches m t) :
    (Regex.cat a b).Matches s t := ⟨m, ha, hb⟩

/-! ### The pattern of `queryParser` against the shape -/

theorem queryParser_matches_elim {l : List Char} {cs : List (List Char)} {t : St}
    (h : queryParser.Matches ⟨0, l, cs⟩ t) :
    ∃ p : Parts, p.WF ∧ l = p.text ∧
      t.caps = (((cs.set 1 p.col).set 2 p.met).set 3 p.key).set 4 p.val := by
  obtain ⟨m1, h1, m2, h2, m3, h3, m4, h4, m5, h5, m6, h6, m7, h7, m8, h8, m9, h9, m10, h10,
    m11, h11, m12, h12, m13, h13, m14, h14, m15, h15, m16, h16, m17, h17, m18, h18, m19, h19,
    m20, h20, m21, h21, h22⟩ := h
  obtain ⟨_, e1⟩ := h1
  obtain ⟨ws0, p2, r2, _, c2⟩ := star_cls_elim h2
  obtain ⟨r3, _, c3⟩ := lits_elim _ h3
  obtain ⟨ws1, p4, r4, _, c4⟩ := plus_cls_elim h4
  obtain ⟨r5, _, c5⟩ := lits_elim _ h5
  obtain ⟨col, p6, r6, _, c6⟩ := cap_plus_cls_elim h6
  obtain ⟨r7, _, c7⟩ := chr_elim h7
  obtain ⟨ws2, p8, r8, _, c8⟩ := plus_cls_elim h8
  obtain ⟨r9, _, c9⟩ := lits_elim _ h9
  obtain ⟨ws3, p10, r10, _, c10⟩ := plus_cls_elim h10
  obtain ⟨met, p11, r11, _, c11⟩ := cap_plus_cls_elim h11
  obtain ⟨ws4, p12, r12, _, c12⟩ := plus_cls_elim h12
  obtain ⟨r13, _, c13⟩ := lits_elim _ h13
  obtain ⟨ws5, p14, r14, _, c14⟩ := plus_cls_elim h14
  obtain ⟨key, p15, r15, _, c15⟩ := cap_plus_cls_elim h15
  obtain ⟨r16, _, c16⟩ := chr_elim h16
  obtain ⟨q1, p17, r17, _, c17⟩ := quest_cls_elim h17
  obtain ⟨val, p18, r18, _, c18⟩ := cap_plus_cls_elim h18
  obtain ⟨q2, p19, r19, _, c19⟩ := quest_cls_elim h19
  obtain ⟨ws6, p20, r20, _, c20⟩ := star_cls_elim h20
  obtain ⟨r21, e21⟩ := h21
  have e22 : t = m21 := h22
  refine ⟨⟨ws0, ws1, col, ws2, ws3, met, ws4, ws5, key, q1, val, q2, ws6⟩,
    ⟨p2, p4, p6, p8, p10, p11, p12, p14, p15, p17, p18, p19, p20⟩, ?_, ?_⟩
  · have e0 : l = m1.rest := by rw [e1]
    rw [e0, r2, r3, r4, r5, r6, r7, r8, r9, r10, r11, r12, r13, r14, r15, r16, r17, r18, r19,
      r20, r21, List.append_nil]
    rfl
  · rw [e22, e21, c20, c19, c18, c17, c16, c15, c14, c13, c12, c11, c10, c9, c8, c7, c6, c5,
      c4, c3, c2, e1]

theorem seq_nil_intro (s : St) : (Regex.seq []).Matches s s := rfl

theorem queryParser_matches_intro (p : Parts) (h : p.WF) (cs : List (List Char)) :
    ∃ t, queryParser.Matches ⟨0, p.text, cs⟩ t := by
  have e : p.text = p.ws0 ++ ("SELECT".data ++ (p.ws1 ++ ("LAST(".data ++ (p.col ++ (')' ::
      (p.ws2 ++ ("FROM".data ++ (p.ws3 ++ (p.met ++ (p.ws4 ++ ("WHERE".data ++ (p.ws5 ++
      (p.key ++ ('=' :: (p.q1 ++ (p.val ++ (p.q2 ++ (p.ws6 ++ [])))))))))))))))))) := by
    rw [List.append_nil]; rfl
  rw [e]
  exact Exists.intro _ <|
    cat_intro (s := ⟨0, _, cs⟩) ⟨rfl, rfl⟩ <|
    cat_intro (star_cls_intro h.ws0 _ _ _) <|
    cat_intro (lits_intro _ _ _ _) <|
    cat_intro (plus_cls_intro h.ws1 _ _ _) <|
    cat_intro (lits_intro _ _ _ _) <|
    cat_intro (cap_plus_cls_intro h.col _ _ _ _ _) <|
    cat_intro (chr_intro _ _ _ _) <|
    cat_intro (plus_cls_intro h.ws2 _ _ _) <|
    cat_intro (lits_intro _ _ _ _) <|
    cat_intro (plus_cls_intro h.ws3 _ _ _) <|
    cat_intro (cap_plus_cls_intro h.met _ _ _ _ _) <|
    cat_intro (plus_cls_intro h.ws4 _ _ _) <|
    cat_intro (lits_intro _ _ _ _) <|
    cat_intro (plus_cls_intro h.ws5 _ _ _) <|
    cat_intro (cap_plus_cls_intro h.key _ _ _ _ _) <|
    cat_intro (chr_intro _ _ _ _) <|
    cat_intro (quest_cls_intro h.q1 _ _ _) <|
    cat_intro (cap_plus_cls_intro h.val _ _ _ _ _) <|
    cat_intro (quest_cls_intro h.q2 _ _ _) <|
    cat_intro (star_cls_intro h.ws6 _ _ _) <|
    cat_intro (s := ⟨_, [], _⟩) ⟨rfl, rfl⟩ (seq_nil_intro _)

/-! ### `parseQuery` against the shape -/

theorem matchAt_of_pos (n : Nat) (hn : n ≠ 0) (l : List Char) :
    queryParser.matchAt n l = none := by
  show (if n = 0 then _ else none) = none
  rw [if_neg hn]

theorem findFrom_of_pos : ∀ (l : List Char) (n : Nat), n ≠ 0 → queryParser.findFrom n l = none
  | [], n, hn => by rw [Regex.findFrom, matchAt_of_pos n hn]; rfl
  | _ :: t, n, hn => by
    rw [Regex.findFrom, matchAt_of_pos n hn]
    exact findFrom_of_pos t (n + 1) (by omega)

theorem findFrom_zero (l : List Char) :
    queryParser.findFrom 0 l = (queryParser.matchAt 0 l).map St.caps := by
  cases l with
  | nil => rfl
  | cons c t =>
    rw [Regex.findFrom]
    cases queryParser.matchAt 0 (c :: t) with
    | none => exact findFrom_of_pos t 1 (by decide)
    | some s => rfl

theorem parseQuery_of_matchAt {s : String} {t : St}
    (h : queryParser.matchAt 0 s.data = some t) :
    parseQuery s = .ok
      { column := (index (t.caps.map String.mk) (queryParser.SubexpIndex "column")).getD ""
        metric := (index (t.caps.map String.mk) (queryParser.SubexpIndex "metric")).getD ""
        whereKey := (index (t.caps.map String.mk) (queryParser.SubexpIndex "where_key")).getD ""
        whereValue :=
          (index (t.caps.map String.mk) (queryParser.SubexpIndex "where_value")).getD "" } := by
  unfold parseQuery Regex.FindStringSubmatch
  rw [findFrom_zero, h]
  rfl

theorem parseQuery_of_matchAt_none {s : String} (h : queryParser.matchAt 0 s.data = none) :
    parseQuery s = .error invalidQueryFormat := by
  unfold parseQuery Regex.FindStringSubmatch
  rw [findFrom_zero, h]
  rfl

theorem fields_of_caps (w c m k v : List Char) :
    ({ column := (index ([w, c, m, k, v].map String.mk) (queryParser.SubexpIndex "column")).getD ""
       metric := (index ([w, c, m, k, v].map String.mk) (queryParser.SubexpIndex "metric")).getD ""
       whereKey :=
         (index ([w, c, m, k, v].map String.mk) (queryParser.SubexpIndex "where_key")).getD ""
       whereValue :=
         (index ([w, c, m, k, v].map String.mk) (queryParser.SubexpIndex "where_value")).getD "" }
      : parsedQuery) = ⟨⟨c⟩, ⟨m⟩, ⟨k⟩, ⟨v⟩⟩ := by
  rfl

/-- Every text that `parseQuery` accepts has the shape of the pattern, and
the parsed query is made of the four captured pieces. -/
theorem parseQuery_sound {s : String} {x : parsedQuery} (h : parseQuery s = .ok x) :
    ∃ p : Parts, p.WF ∧ s.data = p.text ∧ x = p.query := by
  cases hm : queryParser.matchAt 0 s.data with
  | none =>
    rw [parseQuery_of_matchAt_none hm] at h
    cases h
  | some t =>
    rw [parseQuery_of_matchAt hm] at h
    obtain ⟨t', ht', hk⟩ := run_sound _ _ _ _ hm
    cases hk
    obtain ⟨m, hm1, rfl⟩ := ht'
    obtain ⟨p, hwf, htext, hcaps⟩ := queryParser_matches_elim hm1
    refine ⟨p, hwf, htext, ?_⟩
    have hc : (St.mk m.pos m.rest (m.caps.set 0
        ((St.mk 0 s.data (List.replicate (queryParser.numSubexp + 1) [])).rest.take
          (m.pos - (St.mk 0 s.data (List.replicate (queryParser.numSubexp + 1) [])).pos)))).caps =
        [s.data.take m.pos, p.col, p.met, p.key, p.val] := by
      simp only [hcaps]
      rfl
    rw [hc, fields_of_caps] at h
    cases h
    rfl

/-- Every text of the shape of the pattern is accepted by `parseQuery`. -/
theorem parseQuery_complete {s : String} (p : Parts) (hwf : p.WF) (hs : s.data = p.text) :
    ∃ x, parseQuery s = .ok x := by
  obtain ⟨t, ht⟩ := queryParser_matches_intro p hwf (List.replicate (queryParser.numSubexp + 1) [])
  have hc : (Regex.cap 0 "" queryParser).Matches
      ⟨0, p.text, List.replicate (queryParser.numSubexp + 1) []⟩
      ⟨t.pos, t.rest, t.caps.set 0 (p.text.take (t.pos - 0))⟩ := ⟨t, ht, rfl⟩
  obtain ⟨y, hy⟩ := run_complete _ some _ _ _ hc rfl
  have hm : queryParser.matchAt 0 s.data = some y := by rw [hs]; exact hy
  exact ⟨_, parseQuery_of_matchAt hm⟩

/-- The only error of `parseQuery` is the invalid-query-format error. -/
theorem parseQuery_error {s : String} {e : String} (h : parseQuery s = .error e) :
    e = invalidQueryFormat := by
  cases hm : queryParser.matchAt 0 s.data with
  | none =>
    rw [parseQuery_of_matchAt_none hm] at h
    cases h
    rfl
  | some t =>
    rw [parseQuery_of_matchAt hm] at h
    cases h

/-! ### Runs of a character class in a text -/

theorem many_nil (P : Char → Bool) : Many P [] := fun _ h => by cases h

theorem many_of_cons {P : Char → Bool} {c : Char} {w : List Char} (h : Many P (c :: w)) :
    P c = true ∧ Many P w :=
  ⟨h c (List.mem_cons_self c w), fun d hd => h d (List.mem_cons_of_mem c hd)⟩

theorem many_reverse {P : Char → Bool} {w : List Char} (h : Many P w) : Many P w.reverse :=
  fun c hc => h c (List.mem_reverse.mp hc)

theorem many1_reverse {P : Char → Bool} {w : List Char} (h : Many1 P w) : Many1 P w.reverse :=
  ⟨fun e => h.1 (List.reverse_eq_nil_iff.mp e), many_reverse h.2⟩

theorem many_of_many1 {P : Char → Bool} {w : List Char} (h : Many1 P w) : Many P w := h.2

theorem many_of_opt {P : Char → Bool} {w : List Char} (h : Opt P w) : Many P w := by
  rcases h with rfl | ⟨c, hc, rfl⟩
  · exact many_nil P
  · intro d hd
    rcases List.mem_singleton.mp hd with rfl
    exact hc

theorem opt_reverse_eq {P : Char → Bool} {w : List Char} (h : Opt P w) : w.reverse = w := by
  rcases h with rfl | ⟨c, _, rfl⟩ <;> rfl

theorem many1_single {P : Char → Bool} {c : Char} (h : P c = true) : Many1 P [c] :=
  ⟨List.cons_ne_nil c [], fun d hd => by rcases List.mem_singleton.mp hd with rfl; exact h⟩

theorem headNot_cons {P : Char → Bool} {x : Char} (h : P x = false) (r : List Char) :
    HeadNot P (x :: r) := ⟨x, r, rfl, h⟩

theorem headNot_many1 {P Q : Char → Bool} {w : List Char} (hw : Many1 Q w)
    (hPQ : ∀ c, Q c = true → P c = false) (r : List Char) : HeadNot P (w ++ r) := by
  obtain ⟨hne, hall⟩ := hw
  cases w with
  | nil => exact absurd rfl hne
  | cons c w => exact ⟨c, w ++ r, rfl, hPQ c (hall c (List.mem_cons_self c w))⟩

theorem headNot_opt {P Q : Char → Bool} {q : List Char} (hq : Opt Q q)
    (hPQ : ∀ c, Q c = true → P c = false) {L : List Char} (hL : HeadNot P L) :
    HeadNot P (q ++ L) := by
  rcases hq with rfl | ⟨c, hc, rfl⟩
  · exact hL
  · exact ⟨c, L, rfl, hPQ c hc⟩

/-- A run of a class followed by a character outside the class is determined
by the text. -/
theorem span_unique {P : Char → Bool} : ∀ {a b : List Char} {L L' : List Char},
    Many P a → Many P b → HeadNot P L → HeadNot P L' → a ++ L = b ++ L' → a = b ∧ L = L' := by
  intro a
  induction a with
  | nil =>
    intro b L L' _ hb hL hL' h
    cases b with
    | nil => exact ⟨rfl, h⟩
    | cons d b =>
      obtain ⟨x, r, rfl, hx⟩ := hL
      have hd := (many_of_cons hb).1
      simp only [List.nil_append, List.cons_append, List.cons.injEq] at h
      rw [h.1, hd] at hx
      cases hx
  | cons c a ih =>
    intro b L L' ha hb hL hL' h
    cases b with
    | nil =>
      obtain ⟨y, r, rfl, hy⟩ := hL'
      have hc := (many_of_cons ha).1
      simp only [List.nil_append, List.cons_append, List.cons.injEq] at h
      rw [← h.1, hc] at hy
      cases hy
    | cons d b =>
      simp only [List.cons_append, List.cons.injEq] at h
      obtain ⟨h1, h2⟩ := ih (many_of_cons ha).2 (many_of_cons hb).2 hL hL' h.2
      exact ⟨by rw [h.1, h1], h2⟩

theorem data_ne_nil {s : String} (h : s ≠ "") : s.data ≠ [] := by
  intro e
  apply h
  exact String.ext e

/-! ### Relations between the character classes of the pattern -/

theorem isSpace_of_isValueChar (c : Char) (h : isValueChar c = true) : isSpace c = false := by
  simp only [isValueChar, Bool.not_eq_true', Bool.or_eq_false_iff] at h
  exact h.1.1.1

theorem isQuote_of_isValueChar (c : Char) (h : isValueChar c = true) : isQuote c = false := by
  simp only [isValueChar, Bool.not_eq_true', Bool.or_eq_false_iff] at h
  simp only [isQuote, Bool.or_eq_false_iff]
  exact ⟨h.1.2, h.2⟩

theorem isValueChar_of_isQuote (c : Char) (h : isQuote c = true) : isValueChar c = false := by
  cases hv : isValueChar c with
  | false => rfl
  | true => rw [isQuote_of_isValueChar c hv] at h; cases h

theorem isSpace_of_isQuote (c : Char) (h : isQuote c = true) : isSpace c = false := by
  simp only [isQuote, squote, dquote, Bool.or_eq_true, beq_iff_eq] at h
  rcases h with rfl | rfl <;> rfl

theorem isSpace_of_isKeyChar (c : Char) (h : isKeyChar c = true) : isSpace c = false := by
  simp only [isKeyChar, Bool.not_eq_true', Bool.or_eq_false_iff] at h
  exact h.1

theorem isKeyChar_of_isSpace (c : Char) (h : isSpace c = true) : isKeyChar c = false := by
  simp only [isKeyChar, h, Bool.true_or, Bool.not_true]

theorem isSpace_of_isNonSpace (c : Char) (h : isNonSpace c = true) : isSpace c = false := by
  simpa [isNonSpace] using h

theorem isNonSpace_of_isSpace (c : Char) (h : isSpace c = true) : isNonSpace c = false := by
  simp only [isNonSpace, h, Bool.not_true]

/-! ### Reading a text of the shape from its end -/

theorem Parts.text_reverse (p : Parts) :
    p.text.reverse = p.ws6.reverse ++ (p.q2.reverse ++ (p.val.reverse ++ (p.q1.reverse ++
      ('=' :: (p.key.reverse ++ p.revBeforeKey))))) := by
  have e1 : "SELECT".data = ['S', 'E', 'L', 'E', 'C', 'T'] := rfl
  have e2 : "LAST(".data = ['L', 'A', 'S', 'T', '('] := rfl
  have e3 : "FROM".data = ['F', 'R', 'O', 'M'] := rfl
  have e4 : "WHERE".data = ['W', 'H', 'E', 'R', 'E'] := rfl
  simp only [Parts.text, Parts.revBeforeKey, Parts.revBeforeWhere, Parts.revBeforeFrom,
    e1, e2, e3, e4, List.reverse_append, List.reverse_cons,
    List.reverse_nil, List.nil_append, List.append_assoc, List.cons_append]

theorem headNot_revBeforeKey {p : Parts} (hwf : p.WF) : HeadNot isKeyChar p.revBeforeKey :=
  headNot_many1 (many1_reverse hwf.ws5) isKeyChar_of_isSpace _

/-- The end of a text of the shape, read backwards: the trailing whitespace,
the optional quotes, the value and the key are determined by the text. -/
theorem tail_unique {p : Parts} (hwf : p.WF) {ws qa v qb k rest : List Char}
    (hws : Many isSpace ws) (hqa : Opt isQuote qa) (hv : Many1 isValueChar v)
    (hqb : Opt isQuote qb) (hk : Many1 isKeyChar k) (hrest : HeadNot isKeyChar rest)
    (h : p.text.reverse = ws ++ (qa ++ (v ++ (qb ++ ('=' :: (k ++ rest)))))) :
    p.ws6.reverse = ws ∧ p.q2 = qa ∧ p.val.reverse = v ∧ p.q1 = qb ∧ p.key.reverse = k ∧
      p.revBeforeKey = rest := by
  rw [Parts.text_reverse, opt_reverse_eq hwf.q2, opt_reverse_eq hwf.q1] at h
  -- the trailing whitespace
  obtain ⟨e6, h⟩ := span_unique (P := isSpace) (many_reverse hwf.ws6) hws
    (headNot_opt hwf.q2 isSpace_of_isQuote
      (headNot_many1 (many1_reverse hwf.val) isSpace_of_isValueChar _))
    (headNot_opt hqa isSpace_of_isQuote (headNot_many1 hv isSpace_of_isValueChar _)) h
  -- the closing quote
  obtain ⟨e5, h⟩ := span_unique (P := isQuote) (many_of_opt hwf.q2) (many_of_opt hqa)
    (headNot_many1 (many1_reverse hwf.val) isQuote_of_isValueChar _)
    (headNot_many1 hv isQuote_of_isValueChar _) h
  -- the value
  have eqv : isValueChar '=' = false := rfl
  obtain ⟨e4, h⟩ := span_unique (P := isValueChar) (many_of_many1 (many1_reverse hwf.val))
    (many_of_many1 hv) (headNot_opt hwf.q1 isValueChar_of_isQuote (headNot_cons eqv _))
    (headNot_opt hqb isValueChar_of_isQuote (headNot_cons eqv _)) h
  -- the opening quote
  have eqq : isQuote '=' = false := rfl
  obtain ⟨e3, h⟩ := span_unique (P := isQuote) (many_of_opt hwf.q1) (many_of_opt hqb)
    (headNot_cons eqq _) (headNot_cons eqq _) h
  -- the key
  obtain ⟨e2, h⟩ := span_unique (P := isKeyChar) (many_of_many1 (many1_reverse hwf.key))
    (many_of_many1 hk) (headNot_revBeforeKey hwf) hrest (List.cons.inj h).2
  exact ⟨e6, e5, e4, e3, e2, h⟩

theorem parts_ext {p p' : Parts} (h0 : p.ws0 = p'.ws0) (h1 : p.ws1 = p'.ws1)
    (h2 : p.col = p'.col) (h3 : p.ws2 = p'.ws2) (h4 : p.ws3 = p'.ws3) (h5 : p.met = p'.met)
    (h6 : p.ws4 = p'.ws4) (h7 : p.ws5 = p'.ws5) (h8 : p.key = p'.key) (h9 : p.q1 = p'.q1)
    (h10 : p.val = p'.val) (h11 : p.q2 = p'.q2) (h12 : p.ws6 = p'.ws6) : p = p' := by
  cases p
  cases p'
  simp only [Parts.mk.injEq]
  exact ⟨h0, h1, h2, h3, h4, h5, h6, h7, h8, h9, h10, h11, h12⟩

/-- The pattern is unambiguous: a text has the shape of the pattern in at
most one way. -/
theorem parts_unique {p p' : Parts} (hwf : p.WF) (hwf' : p'.WF) (h : p.text = p'.text) :
    p = p' := by
  have nS : isSpace 'S' = false := rfl
  have nL : isSpace 'L' = false := rfl
  have nE : isSpace 'E' = false := rfl
  have nM : isSpace 'M' = false := rfl
  have nP : isSpace ')' = false := rfl
  -- from the start: the whitespace around `SELECT`
  have hh := h
  unfold Parts.text at hh
  obtain ⟨e0, hh⟩ := span_unique (P := isSpace) hwf.ws0 hwf'.ws0
    (headNot_cons (x := 'S') nS _) (headNot_cons (x := 'S') nS _) hh
  have hh := @List.append_cancel_left Char "SELECT".data _ _ hh
  obtain ⟨e1, _⟩ := span_unique (P := isSpace) (many_of_many1 hwf.ws1) (many_of_many1 hwf'.ws1)
    (headNot_cons (x := 'L') nL _) (headNot_cons (x := 'L') nL _) hh
  -- from the end: everything else
  have hr := congrArg List.reverse h
  rw [Parts.text_reverse p', opt_reverse_eq hwf'.q2, opt_reverse_eq hwf'.q1] at hr
  obtain ⟨e12, e11, e10, e9, e8, hr⟩ := tail_unique hwf (many_reverse hwf'.ws6) hwf'.q2
    (many1_reverse hwf'.val) hwf'.q1 (many1_reverse hwf'.key) (headNot_revBeforeKey hwf') hr
  unfold Parts.revBeforeKey at hr
  obtain ⟨e7, hr⟩ := span_unique (P := isSpace) (many_of_many1 (many1_reverse hwf.ws5))
    (many_of_many1 (many1_reverse hwf'.ws5)) (headNot_cons nE _) (headNot_cons nE _) hr
  simp only [List.cons.injEq, true_and] at hr
  unfold Parts.revBeforeWhere at hr
  obtain ⟨e6, hr⟩ := span_unique (P := isSpace) (many_of_many1 (many1_reverse hwf.ws4))
    (many_of_many1 (many1_reverse hwf'.ws4))
    (headNot_many1 (many1_reverse hwf.met) isSpace_of_isNonSpace _)
    (headNot_many1 (many1_reverse hwf'.met) isSpace_of_isNonSpace _) hr
  obtain ⟨e5, hr⟩ := span_unique (P := isNonSpace) (many_of_many1 (many1_reverse hwf.met))
    (many_of_many1 (many1_reverse hwf'.met))
    (headNot_many1 (many1_reverse hwf.ws3) isNonSpace_of_isSpace _)
    (headNot_many1 (many1_reverse hwf'.ws3) isNonSpace_of_isSpace _) hr
  obtain ⟨e4, hr⟩ := span_unique (P := isSpace) (many_of_many1 (many1_reverse hwf.ws3))
    (many_of_many1 (many1_reverse hwf'.ws3)) (headNot_cons nM _) (headNot_cons nM _) hr
  simp only [List.cons.injEq, true_and] at hr
  unfold Parts.revBeforeFrom at hr
  obtain ⟨e3, hr⟩ := span_unique (P := isSpace) (many_of_many1 (many1_reverse hwf.ws2))
    (many_of_many1 (many1_reverse hwf'.ws2)) (headNot_cons nP _) (headNot_cons nP _) hr
  simp only [List.cons.injEq, true_and] at hr
  rw [e0, e1] at hr
  have e2 := List.append_cancel_right hr
  rw [List.reverse_inj] at e2 e3 e4 e5 e6 e7 e8 e10 e12
  exact parts_ext e0 e1 e2 e3 e4 e5 e6 e7 e8 e9 e10 e11 e12

/-- A text of the shape of the pattern is accepted by `parseQuery`, and the
parsed query is made of its four captured pieces. -/
theorem parseQuery_of_parts {s : String} (p : Parts) (hwf : p.WF) (hs : s.data = p.text) :
    parseQuery s = .ok p.query := by
  obtain ⟨x, hx⟩ := parseQuery_complete p hwf hs
  obtain ⟨p', hwf', hs', rfl⟩ := parseQuery_sound hx
  rw [hx, parts_unique hwf hwf' (hs.symm.trans hs')]

/-- The texts that `parseQuery` accepts are the texts of the shape of the
pattern, and the result is made of the four captured pieces. -/
theorem parseQuery_ok_iff (s : String) (x : parsedQuery) :
    parseQuery s = .ok x ↔ ∃ p : Parts, p.WF ∧ s.data = p.text ∧ x = p.query := by
  constructor
  · exact parseQuery_sound
  · rintro ⟨p, hwf, hs, rfl⟩
    exact parseQuery_of_parts p hwf hs

/-! ## Properties of the translation and of the response adapter -/

theorem scenario_parse :
    parseQuery "SELECT LAST(value) FROM cpu WHERE host='a'" = .ok scenarioQuery := by rfl

theorem scenario_valid :
    ValidRequest scenarioRequest "mydb" "SELECT LAST(value) FROM cpu WHERE host='a'"
      scenarioQuery :=
  ⟨rfl, ⟨[], rfl⟩, ⟨[], rfl⟩, ⟨[], rfl⟩, scenario_parse⟩

theorem ServeHTTP_valid (hd : queryHandler) (formatFloat : ℚ → String)
    (r : Request) (db q : String) (query : parsedQuery) (h : ValidRequest r db q query) :
    hd.ServeHTTP formatFloat r =
      ([.parseQuery q, .Query (promQuery query db)],
        finish formatFloat query (hd.prometheusAPI (promQuery query db))) := by
  obtain ⟨hf, ⟨dbs, hdb⟩, ⟨es, he⟩, ⟨qs, hq⟩, hp⟩ := h
  simp only [queryHandler.ServeHTTP, hf, hdb, he, hq, index]
  simp only [le_refl, if_true, Int.toNat_zero, List.get?_cons_zero, bne_self_eq_false,
    Bool.false_eq_true, if_false, finish]
  rw [hp]
  dsimp only
  generalize hd.prometheusAPI (promQuery query db) = x
  cases x with
  | error e => rfl
  | ok resp =>
    dsimp only
    generalize responseAdapter query resp = y
    cases y with
    | error e => rfl
    | ok ir =>
      dsimp only
      generalize encodeResponse formatFloat ir = z
      cases z <;> rfl

theorem sprintfAux_promQuery (m c db k v : String) :
    sprintfAux "last_over_time(%s_%s\x7bdb=\"%s\", %s=\"%s\"\x7d[1y])".data [m, c, db, k, v] =
      "last_over_time(".data ++ (m.data ++ ('_' :: (c.data ++ ("\x7bdb=\"".data ++ (db.data ++
        ("\", ".data ++ (k.data ++ ("=\"".data ++ (v.data ++ "\"\x7d[1y])".data))))))))) := rfl

theorem promQuery_eq (query : parsedQuery) (db : String) :
    promQuery query db = "last_over_time(" ++ query.metric ++ "_" ++ query.column ++
      "\x7bdb=\"" ++ db ++ "\", " ++ query.whereKey ++ "=\"" ++ query.whereValue ++
      "\"\x7d[1y])" := by
  apply String.ext
  simp only [promQuery, Sprintf, sprintfAux_promQuery, String.data_append, List.append_assoc]
  rfl

/-- C2: the backend query string the handler builds from a parsed query and a
database is `last_over_time(metric_column{db="db", whereKey="whereValue"}[1y])`;
the handler run of scenario 1 sends
`last_over_time(cpu_value{db="mydb", host="a"}[1y])` to the backend. -/
theorem promQuery_format (hd : queryHandler) (formatFloat : ℚ → String)
    (query : parsedQuery) (db : String) :
    promQuery query db = "last_over_time(" ++ query.metric ++ "_" ++ query.column ++
      "\x7bdb=\"" ++ db ++ "\", " ++ query.whereKey ++ "=\"" ++ query.whereValue ++
      "\"\x7d[1y])" ∧
    (hd.ServeHTTP formatFloat scenarioRequest).1 =
      [.parseQuery "SELECT LAST(value) FROM cpu WHERE host='a'",
       .Query "last_over_time(cpu_value\x7bdb=\"mydb\", host=\"a\"\x7d[1y])"] := by
  refine ⟨promQuery_eq query db, ?_⟩
  rw [ServeHTTP_valid hd formatFloat _ _ _ _ scenario_valid]
  rfl

/-- C3: on a scalar the response adapter succeeds with one result of
statement id 0 holding one series, named by the parsed metric, with columns
`time` and `last` and the single row of the sample's seconds and value; for
the sample of scenario 1 the series is `cpu`, `[time, last]`,
`[[1700000000, 42.5]]`, whether the sample comes as a scalar or as the
one-sample vector of the scenario. -/
theorem responseAdapter_scalar (query : parsedQuery) (ts : Int) (val : Float64) :
    responseAdapter query (.Scalar ts val) =
      .ok { Results := [
        { StatementID := 0,
          Series := some [
            { Name := query.metric,
              Columns := ["time", "last"],
              Values := [[Float64.ofInt64 (Unix ts), val]] }] }] } ∧
    responseAdapter scenarioQuery (.Scalar 1700000000000 (.finite (85 / 2))) =
      .ok { Results := [
        { StatementID := 0,
          Series := some [
            { Name := "cpu",
              Columns := ["time", "last"],
              Values := [[.finite 1700000000, .finite (85 / 2)]] }] }] } ∧
    responseAdapter scenarioQuery (.Vector [⟨1700000000000, .finite (85 / 2)⟩]) =
      .ok { Results := [
        { StatementID := 0,
          Series := some [
            { Name := "cpu",
              Columns := ["time", "last"],
              Values := [[.finite 1700000000, .finite (85 / 2)]] }] }] } := by
  have h : Float64.ofInt64 (Unix 1700000000000) = .finite 1700000000 := by
    have : roundInt53 (Unix 1700000000000) = 1700000000 := by decide
    simp [Float64.ofInt64, this]
  refine ⟨rfl, ?_, ?_⟩
  · show Except.ok (seriesResponse scenarioQuery (Float64.ofInt64 (Unix 1700000000000)) _) = _
    rw [h]
    rfl
  · show Except.ok (seriesResponse scenarioQuery (Float64.ofInt64 (Unix 1700000000000)) _) = _
    rw [h]
    rfl

/-- C4: on a vector without samples the response adapter succeeds with one
result of statement id 0 and no series. -/
theorem responseAdapter_empty_vector (query : parsedQuery) :
    responseAdapter query (.Vector []) =
      .ok { Results := [{ StatementID := 0, Series := none }] } := rfl

/-- C5 (as amended): for a valid request answered by the backend with an
empty vector, the handler replies 200 with the body
`{"results":[{"statement_id":0,"series":null}]}` and a newline. -/
theorem ServeHTTP_empty_vector (hd : queryHandler) (formatFloat : ℚ → String)
    (r : Request) (db q : String) (query : parsedQuery) (h : ValidRequest r db q query)
    (hb : hd.prometheusAPI (promQuery query db) = .ok (.Vector [])) :
    (hd.ServeHTTP formatFloat r).2 =
      .reply 200 "\x7b\"results\":[\x7b\"statement_id\":0,\"series\":null\x7d]\x7d\n" := by
  rw [ServeHTTP_valid hd formatFloat r db q query h, hb]
  rfl

/-- Witness of C5 (as amended) on the request of scenario 2. -/
theorem ServeHTTP_empty_vector_witness :
    ValidRequest scenarioRequest "mydb" "SELECT LAST(value) FROM cpu WHERE host='a'"
      scenarioQuery ∧
    emptyBackend.prometheusAPI (promQuery scenarioQuery "mydb") = .ok (.Vector []) ∧
    (emptyBackend.ServeHTTP (fun _ => "") scenarioRequest).2 =
      .reply 200 "\x7b\"results\":[\x7b\"statement_id\":0,\"series\":null\x7d]\x7d\n" :=
  ⟨scenario_valid, rfl,
    ServeHTTP_empty_vector emptyBackend (fun _ => "") scenarioRequest "mydb"
      "SELECT LAST(value) FROM cpu WHERE host='a'" scenarioQuery scenario_valid rfl⟩

/-- C5 fails as stated: on the request of scenario 2 the body is not
`{"results":[{"statement_id":0}]}` (with or without a final newline), it
carries the key `series` with the value `null`. -/
theorem ServeHTTP_empty_vector_body_has_series :
    (emptyBackend.ServeHTTP (fun _ => "") scenarioRequest).2 =
      .reply 200 "\x7b\"results\":[\x7b\"statement_id\":0,\"series\":null\x7d]\x7d\n" ∧
    (emptyBackend.ServeHTTP (fun _ => "") scenarioRequest).2 ≠
      .reply 200 "\x7b\"results\":[\x7b\"statement_id\":0\x7d]\x7d\n" ∧
    (emptyBackend.ServeHTTP (fun _ => "") scenarioRequest).2 ≠
      .reply 200 "\x7b\"results\":[\x7b\"statement_id\":0\x7d]\x7d" := by
  decide

/-- C6: the response adapter returns the same on a vector of exactly one
sample and on the scalar of that sample's timestamp and value. -/
theorem responseAdapter_singleton_eq_scalar (query : parsedQuery) (ts : Int) (val : Float64) :
    responseAdapter query (.Vector [⟨ts, val⟩]) = responseAdapter query (.Scalar ts val) := rfl

/-- C7: on a vector of two or more samples the response adapter fails with
the error `Upstream query returned more than one value`. -/
theorem responseAdapter_ambiguous (query : parsedQuery) (samples : List Sample)
    (h : 2 ≤ samples.length) :
    responseAdapter query (.Vector samples) =
      .error "Upstream query returned more than one value" := by
  have h0 : samples.length ≠ 0 := by omega
  have h1 : samples.length > 1 := by omega
  simp [responseAdapter, h0, h1, ambiguousResult]

/-- Witness of C7 on two samples. -/
theorem responseAdapter_ambiguous_witness :
    2 ≤ [Sample.mk 1 (.finite 1), Sample.mk 2 (.finite 2)].length ∧
    responseAdapter scenarioQuery (.Vector [⟨1, .finite 1⟩, ⟨2, .finite 2⟩]) =
      .error "Upstream query returned more than one value" :=
  ⟨by decide, responseAdapter_ambiguous scenarioQuery [⟨1, .finite 1⟩, ⟨2, .finite 2⟩] (by decide)⟩

/-- C8: on a result that is neither a scalar nor a vector the response
adapter fails, and the message ends with the name of the result's type. -/
theorem responseAdapter_unsupported (query : parsedQuery) (resp : Value)
    (hs : ∀ ts v, resp ≠ .Scalar ts v) (hv : ∀ samples, resp ≠ .Vector samples) :
    responseAdapter query resp =
      .error ("Upstream response was not a scalar or vector - Actual type: " ++
        resp.TypeName) ∧
    (resp.TypeName = "matrix" ∨ resp.TypeName = "string") := by
  cases resp with
  | Scalar ts v => exact absurd rfl (hs ts v)
  | Vector l => exact absurd rfl (hv l)
  | Matrix l => exact ⟨rfl, Or.inl rfl⟩
  | Str ts v => exact ⟨rfl, Or.inr rfl⟩

/-- Witness of C8 on a string result. -/
theorem responseAdapter_unsupported_witness :
    (∀ ts v, Value.Str 0 "x" ≠ .Scalar ts v) ∧ (∀ samples, Value.Str 0 "x" ≠ .Vector samples) ∧
    responseAdapter scenarioQuery (.Str 0 "x") =
      .error ("Upstream response was not a scalar or vector - Actual type: " ++
        (Value.Str 0 "x").TypeName) ∧
    ((Value.Str 0 "x").TypeName = "matrix" ∨ (Value.Str 0 "x").TypeName = "string") :=
  ⟨fun _ _ h => (by cases h), fun _ h => (by cases h),
    responseAdapter_unsupported scenarioQuery (.Str 0 "x") (fun _ _ h => (by cases h))
      (fun _ h => (by cases h))⟩

/-! ### Timestamps -/

theorem roundInt53_of_lt (n : Int) (h : n.natAbs < 2 ^ 53) : roundInt53 n = n := by
  unfold roundInt53
  simp only
  rw [if_pos h]

theorem Unix_natAbs_lt (t : Int) (h : t.natAbs < 2 ^ 53 * 1000) :
    (Unix t).natAbs < 2 ^ 53 := by
  unfold Unix
  rw [Int.natAbs_tdiv]
  have h1 : Int.natAbs 1000 = 1000 := rfl
  rw [h1]
  exact Nat.div_lt_of_lt_mul (by rw [Nat.mul_comm]; exact h)

theorem tdiv_floor_of_nonneg (t : Int) (h : 0 ≤ t) : Int.tdiv t 1000 = ⌊(t : ℚ) / 1000⌋ := by
  have := Rat.floor_intCast_div_natCast t 1000
  simp only [Nat.cast_ofNat] at this
  rw [this, Int.tdiv_eq_ediv h (by decide)]

theorem tdiv_floor_of_dvd (t : Int) (h : 1000 ∣ t) : Int.tdiv t 1000 = ⌊(t : ℚ) / 1000⌋ := by
  have := Rat.floor_intCast_div_natCast t 1000
  simp only [Nat.cast_ofNat] at this
  rw [this, Int.tdiv_eq_ediv_of_dvd h]

theorem tdiv_floor_of_neg (t : Int) (h : t < 0) (hd : ¬ 1000 ∣ t) :
    Int.tdiv t 1000 = ⌊(t : ℚ) / 1000⌋ + 1 := by
  have := Rat.floor_intCast_div_natCast t 1000
  simp only [Nat.cast_ofNat] at this
  have h1 : Int.tdiv t 1000 = -((-t) / 1000) := by
    have h2 : Int.tdiv (-(-t)) 1000 = -(Int.tdiv (-t) 1000) := Int.neg_tdiv (-t) 1000
    rw [Int.neg_neg] at h2
    rw [h2, Int.tdiv_eq_ediv (by omega) (by decide)]
  rw [this, h1]
  omega

/-- C9 (as amended): for a timestamp `t` in milliseconds below 2^53 seconds
in magnitude, the time of the legacy row, for a scalar and for a one-sample
vector, is `t / 1000` truncated toward zero; that is `floor(t / 1000)` when
`t` is not negative or is a multiple of 1000, and `floor(t / 1000) + 1` for
the other timestamps. -/
theorem emitted_time_truncates (query : parsedQuery) (t : Int) (val : Float64)
    (h : t.natAbs < 2 ^ 53 * 1000) :
    responseAdapter query (.Scalar t val) =
      .ok (seriesResponse query (.finite (Int.tdiv t 1000 : Int)) val) ∧
    responseAdapter query (.Vector [⟨t, val⟩]) =
      .ok (seriesResponse query (.finite (Int.tdiv t 1000 : Int)) val) ∧
    (0 ≤ t ∨ 1000 ∣ t → Int.tdiv t 1000 = ⌊(t : ℚ) / 1000⌋) ∧
    (t < 0 ∧ ¬ 1000 ∣ t → Int.tdiv t 1000 = ⌊(t : ℚ) / 1000⌋ + 1) := by
  have hr : Float64.ofInt64 (Unix t) = .finite (Int.tdiv t 1000 : Int) := by
    unfold Float64.ofInt64
    rw [roundInt53_of_lt _ (Unix_natAbs_lt t h)]
    rfl
  refine ⟨?_, ?_, ?_, ?_⟩
  · show Except.ok (seriesResponse query (Float64.ofInt64 (Unix t)) val) = _
    rw [hr]
  · show Except.ok (seriesResponse query (Float64.ofInt64 (Unix t)) val) = _
    rw [hr]
  · rintro (h0 | hd)
    · exact tdiv_floor_of_nonneg t h0
    · exact tdiv_floor_of_dvd t hd
  · rintro ⟨h0, hd⟩
    exact tdiv_floor_of_neg t h0 hd

/-- Witness of C9 (as amended) at 1700000000123 milliseconds. -/
theorem emitted_time_truncates_witness :
    (1700000000123 : Int).natAbs < 2 ^ 53 * 1000 ∧
    responseAdapter scenarioQuery (.Scalar 1700000000123 (.finite 1)) =
      .ok (seriesResponse scenarioQuery (.finite (Int.tdiv 1700000000123 1000 : Int))
        (.finite 1)) :=
  ⟨by decide, (emitted_time_truncates scenarioQuery 1700000000123 (.finite 1) (by decide)).1⟩

/-- C9 fails as stated: one millisecond before the epoch the emitted time is
0 and not `floor(-1 / 1000) = -1`, for a scalar and for a one-sample vector;
and at 2^53 + 1 seconds the emitted time is 2^53 and not
`floor(t / 1000) = 2^53 + 1`. -/
theorem emitted_time_not_floor :
    ⌊((-1 : Int) : ℚ) / 1000⌋ = -1 ∧
    responseAdapter scenarioQuery (.Scalar (-1) (.finite 1)) =
      .ok (seriesResponse scenarioQuery (.finite 0) (.finite 1)) ∧
    responseAdapter scenarioQuery (.Scalar (-1) (.finite 1)) ≠
      .ok (seriesResponse scenarioQuery (.finite (⌊((-1 : Int) : ℚ) / 1000⌋ : Int)) (.finite 1)) ∧
    responseAdapter scenarioQuery (.Vector [⟨-1, .finite 1⟩]) =
      .ok (seriesResponse scenarioQuery (.finite 0) (.finite 1)) ∧
    responseAdapter scenarioQuery (.Vector [⟨-1, .finite 1⟩]) ≠
      .ok (seriesResponse scenarioQuery (.finite (⌊((-1 : Int) : ℚ) / 1000⌋ : Int)) (.finite 1)) ∧
    ⌊((9007199254740993000 : Int) : ℚ) / 1000⌋ = 9007199254740993 ∧
    responseAdapter scenarioQuery (.Scalar 9007199254740993000 (.finite 1)) =
      .ok (seriesResponse scenarioQuery (.finite 9007199254740992) (.finite 1)) ∧
    responseAdapter scenarioQuery (.Scalar 9007199254740993000 (.finite 1)) ≠
      .ok (seriesResponse scenarioQuery
        (.finite (⌊((9007199254740993000 : Int) : ℚ) / 1000⌋ : Int)) (.finite 1)) := by
  have f1 : ⌊((-1 : Int) : ℚ) / 1000⌋ = -1 := by
    have := Rat.floor_intCast_div_natCast (-1) 1000
    simp only [Nat.cast_ofNat] at this
    rw [this]; decide
  have f2 : ⌊((9007199254740993000 : Int) : ℚ) / 1000⌋ = 9007199254740993 := by
    have := Rat.floor_intCast_div_natCast 9007199254740993000 1000
    simp only [Nat.cast_ofNat] at this
    rw [this]; decide
  have r1 : Float64.ofInt64 (Unix (-1)) = .finite 0 := by
    have : roundInt53 (Unix (-1)) = 0 := by decide
    simp [Float64.ofInt64, this]
  have r2 : Float64.ofInt64 (Unix 9007199254740993000) = .finite 9007199254740992 := by
    have : roundInt53 (Unix 9007199254740993000) = 9007199254740992 := by decide
    simp [Float64.ofInt64, this]
  have a1 : responseAdapter scenarioQuery (.Scalar (-1) (.finite 1)) =
      .ok (seriesResponse scenarioQuery (.finite 0) (.finite 1)) := by
    show Except.ok (seriesResponse scenarioQuery (Float64.ofInt64 (Unix (-1))) _) = _
    rw [r1]
  have a2 : responseAdapter scenarioQuery (.Vector [⟨-1, .finite 1⟩]) =
      .ok (seriesResponse scenarioQuery (.finite 0) (.finite 1)) := by
    show Except.ok (seriesResponse scenarioQuery (Float64.ofInt64 (Unix (-1))) _) = _
    rw [r1]
  have a3 : responseAdapter scenarioQuery (.Scalar 9007199254740993000 (.finite 1)) =
      .ok (seriesResponse scenarioQuery (.finite 9007199254740992) (.finite 1)) := by
    show Except.ok (seriesResponse scenarioQuery
      (Float64.ofInt64 (Unix 9007199254740993000)) _) = _
    rw [r2]
  refine ⟨f1, a1, ?_, a2, ?_, f2, a3, ?_⟩
  · rw [a1, f1]
    simp [seriesResponse]
  · rw [a2, f1]
    simp [seriesResponse]
  · rw [a3, f2]
    simp [seriesResponse]

/-! ## Properties of `parseQuery` -/

theorem parseQuery_select_last_aux {c m k v : List Char} (hc : Many1 isDot c)
    (hm : Many1 isNonSpace m) (hk : Many1 isKeyChar k) (hv : Many1 isValueChar v)
    {s : String}
    (hs : s.data = "SELECT LAST(".data ++ (c ++ (") FROM ".data ++ (m ++ (" WHERE ".data ++
      (k ++ ("='".data ++ (v ++ "'".data)))))))) :
    parseQuery s = .ok ⟨⟨c⟩, ⟨m⟩, ⟨k⟩, ⟨v⟩⟩ := by
  have hq : isQuote squote = true := rfl
  have hsp : Many1 isSpace [' '] := many1_single (c := ' ') rfl
  -- the text has the shape of the pattern, with these pieces
  have hwf : Parts.WF ⟨[], [' '], c, [' '], [' '], m, [' '], [' '], k, [squote], v, [squote],
      []⟩ :=
    ⟨many_nil _, hsp, hc, hsp, hsp, hm, hsp, hsp, hk, Or.inr ⟨squote, hq, rfl⟩, hv,
      Or.inr ⟨squote, hq, rfl⟩, many_nil _⟩
  exact parseQuery_of_parts _ hwf (hs.trans (by rw [Parts.text, List.append_nil]; rfl))

/-- C1 (as amended): for a non-empty column without `)` and without newline, a
non-empty metric without whitespace, a non-empty key without whitespace or
`=`, and a non-empty value without whitespace, `=` or quotes, `parseQuery`
accepts `SELECT LAST(c) FROM m WHERE k='v'` and returns exactly the four
texts. (Whitespace is the class `\s`: tab, newline, form feed, carriage
return, space.) -/
theorem parseQuery_select_last (c m k v : String)
    (hc : c ≠ "") (hc1 : ∀ ch ∈ c.data, ch ≠ ')' ∧ ch ≠ '\n')
    (hm : m ≠ "") (hm1 : ∀ ch ∈ m.data, isSpace ch = false)
    (hk : k ≠ "") (hk1 : ∀ ch ∈ k.data, isSpace ch = false ∧ ch ≠ '=')
    (hv : v ≠ "")
    (hv1 : ∀ ch ∈ v.data, isSpace ch = false ∧ ch ≠ '=' ∧ ch ≠ squote ∧ ch ≠ dquote) :
    parseQuery ("SELECT LAST(" ++ c ++ ") FROM " ++ m ++ " WHERE " ++ k ++ "='" ++ v ++ "'") =
      .ok ⟨c, m, k, v⟩ := by
  have h1 : Many1 isDot c.data :=
    ⟨data_ne_nil hc, fun ch h => by simpa [isDot] using (hc1 ch h).2⟩
  have h2 : Many1 isNonSpace m.data :=
    ⟨data_ne_nil hm, fun ch h => by simp [isNonSpace, hm1 ch h]⟩
  have h3 : Many1 isKeyChar k.data :=
    ⟨data_ne_nil hk, fun ch h => by simp [isKeyChar, (hk1 ch h).1, (hk1 ch h).2]⟩
  have h4 : Many1 isValueChar v.data :=
    ⟨data_ne_nil hv, fun ch h => by
      simp [isValueChar, (hv1 ch h).1, (hv1 ch h).2.1, (hv1 ch h).2.2.1, (hv1 ch h).2.2.2]⟩
  exact parseQuery_select_last_aux h1 h2 h3 h4
    (by simp only [String.data_append, List.append_assoc])

/-- Witness of C1 (as amended): the query of scenario 1. -/
theorem parseQuery_select_last_witness :
    parseQuery ("SELECT LAST(" ++ "value" ++ ") FROM " ++ "cpu" ++ " WHERE " ++ "host" ++ "='" ++
      "a" ++ "'") = .ok ⟨"value", "cpu", "host", "a"⟩ :=
  parseQuery_select_last "value" "cpu" "host" "a" (by decide) (by decide) (by decide)
    (by decide) (by decide) (by decide) (by decide) (by decide)

/-- C1 fails as stated: the column made of one newline is not empty and has
no `)`, yet `SELECT LAST(c) FROM cpu WHERE host='a'` is rejected, because `.`
does not match a newline. -/
theorem parseQuery_newline_column_rejected :
    "\n" ≠ "" ∧ (∀ ch ∈ "\n".data, ch ≠ ')') ∧
    "cpu" ≠ "" ∧ (∀ ch ∈ "cpu".data, isSpace ch = false) ∧
    "host" ≠ "" ∧ (∀ ch ∈ "host".data, isSpace ch = false ∧ ch ≠ '=') ∧
    "a" ≠ "" ∧ (∀ ch ∈ "a".data, isSpace ch = false ∧ ch ≠ '=' ∧ ch ≠ squote ∧ ch ≠ dquote) ∧
    parseQuery ("SELECT LAST(" ++ "\n" ++ ") FROM " ++ "cpu" ++ " WHERE " ++ "host" ++ "='" ++
      "a" ++ "'") = .error "Invalid query format - Failed to match" := by
  refine ⟨by decide, by decide, by decide, by decide, by decide, by decide, by decide,
    by decide, ?_⟩
  rfl

theorem parseQuery_and_error (q k v : String)
    (hk : k ≠ "") (hk1 : ∀ ch ∈ k.data, isSpace ch = false ∧ ch ≠ '=')
    (hv : v ≠ "")
    (hv1 : ∀ ch ∈ v.data, isSpace ch = false ∧ ch ≠ '=' ∧ ch ≠ squote ∧ ch ≠ dquote) :
    parseQuery (q ++ " AND " ++ k ++ "=" ++ v) = .error invalidQueryFormat := by
  have h3 : Many1 isKeyChar k.data :=
    ⟨data_ne_nil hk, fun ch h => by simp [isKeyChar, (hk1 ch h).1, (hk1 ch h).2]⟩
  have h4 : Many1 isValueChar v.data :=
    ⟨data_ne_nil hv, fun ch h => by
      simp [isValueChar, (hv1 ch h).1, (hv1 ch h).2.1, (hv1 ch h).2.2.1, (hv1 ch h).2.2.2]⟩
  cases h : parseQuery (q ++ " AND " ++ k ++ "=" ++ v) with
  | error e => rw [parseQuery_error h]
  | ok x =>
    exfalso
    obtain ⟨p, hwf, htext, _⟩ := parseQuery_sound h
    have hrev : p.text.reverse = [] ++ ([] ++ (v.data.reverse ++ ([] ++ ('=' ::
        (k.data.reverse ++ (' ' :: 'D' :: 'N' :: 'A' :: ' ' :: q.data.reverse)))))) := by
      have e1 : " AND ".data = [' ', 'A', 'N', 'D', ' '] := rfl
      have e2 : "=".data = ['='] := rfl
      rw [← htext]
      simp only [String.data_append, e1, e2, List.reverse_append, List.reverse_cons,
        List.reverse_nil, List.nil_append, List.append_assoc, List.cons_append]
    have nK : isKeyChar ' ' = false := rfl
    obtain ⟨_, _, _, _, _, h1⟩ := tail_unique hwf (many_nil _) (Or.inl rfl) (many1_reverse h4)
      (Or.inl rfl) (many1_reverse h3) (headNot_cons nK _) hrev
    have nE : isSpace 'E' = false := rfl
    have nD : isSpace 'D' = false := rfl
    unfold Parts.revBeforeKey at h1
    obtain ⟨_, h2⟩ := span_unique (P := isSpace) (b := [' ']) (many_of_many1 (many1_reverse hwf.ws5))
      (many_of_many1 (many1_single (P := isSpace) (c := ' ') rfl)) (headNot_cons nE _) (headNot_cons nD _) h1
    have h3 := (List.cons.inj h2).1
    revert h3
    decide

/-- C10: for a text `q` that `parseQuery` accepts, a non-empty key without
whitespace or `=` and a non-empty value without whitespace, `=` or quotes,
`parseQuery` rejects `q AND k=v` with the invalid-query-format error. -/
theorem parseQuery_rejects_and (q k v : String) (_hq : ∃ x, parseQuery q = .ok x)
    (hk : k ≠ "") (hk1 : ∀ ch ∈ k.data, isSpace ch = false ∧ ch ≠ '=')
    (hv : v ≠ "")
    (hv1 : ∀ ch ∈ v.data, isSpace ch = false ∧ ch ≠ '=' ∧ ch ≠ squote ∧ ch ≠ dquote) :
    parseQuery (q ++ " AND " ++ k ++ "=" ++ v) =
      .error "Invalid query format - Failed to match" :=
  parseQuery_and_error q k v hk hk1 hv hv1

/-- Witness of C10: the query of scenario 1 followed by `AND region=eu`. -/
theorem parseQuery_rejects_and_witness :
    (∃ x, parseQuery "SELECT LAST(value) FROM cpu WHERE host='a'" = .ok x) ∧
    parseQuery ("SELECT LAST(value) FROM cpu WHERE host='a'" ++ " AND " ++ "region" ++ "=" ++
      "eu") = .error "Invalid query format - Failed to match" :=
  ⟨⟨scenarioQuery, scenario_parse⟩,
    parseQuery_rejects_and "SELECT LAST(value) FROM cpu WHERE host='a'" "region" "eu"
      ⟨scenarioQuery, scenario_parse⟩ (by decide) (by decide) (by decide) (by decide)⟩

/-! ## Properties of the accepted texts -/

theorem mk_ne_empty {l : List Char} (h : l ≠ []) : String.mk l ≠ "" := by
  intro e
  exact h (congrArg String.data e)

theorem key_char {c : Char} (h : isKeyChar c = true) : isSpace c = false ∧ c ≠ '=' := by
  simp only [isKeyChar, Bool.not_eq_true', Bool.or_eq_false_iff, beq_eq_false_iff_ne] at h
  exact ⟨h.1, h.2⟩

theorem value_char {c : Char} (h : isValueChar c = true) :
    isSpace c = false ∧ c ≠ '=' ∧ c ≠ squote ∧ c ≠ dquote := by
  simp only [isValueChar, Bool.not_eq_true', Bool.or_eq_false_iff, beq_eq_false_iff_ne] at h
  exact ⟨h.1.1.1, h.1.1.2, h.1.2, h.2⟩

theorem dot_char {c : Char} (h : isDot c = true) : c ≠ '\n' := by
  simpa [isDot] using h

/-- C17: for every text that `parseQuery` accepts, the four fields of the
result are not empty, the metric has no whitespace, the key has no whitespace
and no `=`, and the value has no whitespace, no `=` and no quote. (Whitespace
is the class `\s`: tab, newline, form feed, carriage return, space.) -/
theorem parseQuery_fields (s : String) (x : parsedQuery) (h : parseQuery s = .ok x) :
    x.column ≠ "" ∧ x.metric ≠ "" ∧ x.whereKey ≠ "" ∧ x.whereValue ≠ "" ∧
    (∀ c ∈ x.metric.data, isSpace c = false) ∧
    (∀ c ∈ x.whereKey.data, isSpace c = false ∧ c ≠ '=') ∧
    (∀ c ∈ x.whereValue.data, isSpace c = false ∧ c ≠ '=' ∧ c ≠ squote ∧ c ≠ dquote) := by
  obtain ⟨p, hwf, _, rfl⟩ := parseQuery_sound h
  exact ⟨mk_ne_empty hwf.col.1, mk_ne_empty hwf.met.1, mk_ne_empty hwf.key.1,
    mk_ne_empty hwf.val.1,
    fun c hc => isSpace_of_isNonSpace c (hwf.met.2 c hc),
    fun c hc => key_char (hwf.key.2 c hc),
    fun c hc => value_char (hwf.val.2 c hc)⟩

/-- Witness of C17: the query of scenario 1. -/
theorem parseQuery_fields_witness :
    parseQuery "SELECT LAST(value) FROM cpu WHERE host='a'" = .ok scenarioQuery ∧
    scenarioQuery.column ≠ "" ∧ scenarioQuery.metric ≠ "" ∧ scenarioQuery.whereKey ≠ "" ∧
    scenarioQuery.whereValue ≠ "" ∧
    (∀ c ∈ scenarioQuery.metric.data, isSpace c = false) ∧
    (∀ c ∈ scenarioQuery.whereKey.data, isSpace c = false ∧ c ≠ '=') ∧
    (∀ c ∈ scenarioQuery.whereValue.data,
      isSpace c = false ∧ c ≠ '=' ∧ c ≠ squote ∧ c ≠ dquote) :=
  ⟨scenario_parse,
    parseQuery_fields "SELECT LAST(value) FROM cpu WHERE host='a'" scenarioQuery scenario_parse⟩

/-- C12 (as amended): for every text that `parseQuery` accepts, the captured
column is not empty and has no newline, and in the text it stands between
`LAST(` and a `)` that is followed by whitespace and `FROM`. -/
theorem parseQuery_column (s : String) (x : parsedQuery) (h : parseQuery s = .ok x) :
    x.column ≠ "" ∧ (∀ c ∈ x.column.data, c ≠ '\n') ∧
    ∃ pre ws post, Many1 isSpace ws ∧
      s.data = pre ++ ("LAST(".data ++ (x.column.data ++ (')' :: (ws ++
        ("FROM".data ++ post))))) := by
  obtain ⟨p, hwf, hs, rfl⟩ := parseQuery_sound h
  refine ⟨mk_ne_empty hwf.col.1, fun c hc => dot_char (hwf.col.2 c hc),
    p.ws0 ++ ("SELECT".data ++ p.ws1), p.ws2,
    p.ws3 ++ (p.met ++ (p.ws4 ++ ("WHERE".data ++ (p.ws5 ++ (p.key ++ ('=' :: (p.q1 ++
      (p.val ++ (p.q2 ++ p.ws6))))))))), hwf.ws2, ?_⟩
  rw [hs, Parts.text]
  simp only [List.append_assoc, Parts.query]

/-- Witness of C12 (as amended): a column that holds a `)`. -/
theorem parseQuery_column_witness :
    parseQuery "SELECT LAST(f(x)) FROM cpu WHERE host='a'" = .ok ⟨"f(x)", "cpu", "host", "a"⟩ ∧
    "f(x)" ≠ "" ∧ (∀ c ∈ "f(x)".data, c ≠ '\n') ∧
    ∃ pre ws post, Many1 isSpace ws ∧
      "SELECT LAST(f(x)) FROM cpu WHERE host='a'".data =
        pre ++ ("LAST(".data ++ ("f(x)".data ++ (')' :: (ws ++ ("FROM".data ++ post))))) :=
  ⟨by rfl, parseQuery_column "SELECT LAST(f(x)) FROM cpu WHERE host='a'"
    ⟨"f(x)", "cpu", "host", "a"⟩ (by rfl)⟩

/-- C12 fails as stated: `SELECT LAST(f(x)) FROM cpu WHERE host='a'` is
accepted and its column `f(x)` holds a `)`; the first `)` after `LAST(` does
not close the column. -/
theorem parseQuery_column_with_paren :
    parseQuery "SELECT LAST(f(x)) FROM cpu WHERE host='a'" = .ok ⟨"f(x)", "cpu", "host", "a"⟩ ∧
    ')' ∈ (parsedQuery.mk "f(x)" "cpu" "host" "a").column.data := by
  refine ⟨by rfl, by decide⟩

/-- C13 (as amended): in every text that `parseQuery` accepts the value is
preceded by `=` and an optional quote and followed by an optional quote and
whitespace up to the end; the two quotes are independent of each other:
whatever optional quotes are put in their places, the text is accepted with
the same result. -/
theorem parseQuery_quotes (s : String) (x : parsedQuery) (h : parseQuery s = .ok x) :
    ∃ pre q1 q2 ws, Opt isQuote q1 ∧ Opt isQuote q2 ∧ Many isSpace ws ∧
      s.data = pre ++ ('=' :: (q1 ++ (x.whereValue.data ++ (q2 ++ ws)))) ∧
      ∀ q1' q2', Opt isQuote q1' → Opt isQuote q2' →
        parseQuery ⟨pre ++ ('=' :: (q1' ++ (x.whereValue.data ++ (q2' ++ ws))))⟩ = .ok x := by
  obtain ⟨p, hwf, hs, rfl⟩ := parseQuery_sound h
  refine ⟨p.ws0 ++ ("SELECT".data ++ (p.ws1 ++ ("LAST(".data ++ (p.col ++ (')' :: (p.ws2 ++
    ("FROM".data ++ (p.ws3 ++ (p.met ++ (p.ws4 ++ ("WHERE".data ++ (p.ws5 ++ p.key)))))))))))),
    p.q1, p.q2, p.ws6, hwf.q1, hwf.q2, hwf.ws6, ?_, ?_⟩
  · rw [hs, Parts.text]
    simp only [List.append_assoc, List.cons_append, Parts.query]
  · intro q1' q2' h1 h2
    have hwf' : Parts.WF ⟨p.ws0, p.ws1, p.col, p.ws2, p.ws3, p.met, p.ws4, p.ws5, p.key, q1',
        p.val, q2', p.ws6⟩ :=
      ⟨hwf.ws0, hwf.ws1, hwf.col, hwf.ws2, hwf.ws3, hwf.met, hwf.ws4, hwf.ws5, hwf.key, h1,
        hwf.val, h2, hwf.ws6⟩
    have e : (String.mk (p.ws0 ++ ("SELECT".data ++ (p.ws1 ++ ("LAST(".data ++ (p.col ++
        (')' :: (p.ws2 ++ ("FROM".data ++ (p.ws3 ++ (p.met ++ (p.ws4 ++ ("WHERE".data ++
        (p.ws5 ++ p.key)))))))))))) ++ ('=' :: (q1' ++ (p.query.whereValue.data ++
        (q2' ++ p.ws6)))))).data =
        (Parts.mk p.ws0 p.ws1 p.col p.ws2 p.ws3 p.met p.ws4 p.ws5 p.key q1' p.val q2'
          p.ws6).text := by
      simp only [Parts.text, List.append_assoc, List.cons_append, Parts.query]
    have r := parseQuery_of_parts (Parts.mk p.ws0 p.ws1 p.col p.ws2 p.ws3 p.met p.ws4 p.ws5
      p.key q1' p.val q2' p.ws6) hwf' e
    exact r

/-- Witness of C13 (as amended): the query of scenario 1. -/
theorem parseQuery_quotes_witness :
    parseQuery "SELECT LAST(value) FROM cpu WHERE host='a'" = .ok scenarioQuery ∧
    ∃ pre q1 q2 ws, Opt isQuote q1 ∧ Opt isQuote q2 ∧ Many isSpace ws ∧
      "SELECT LAST(value) FROM cpu WHERE host='a'".data =
        pre ++ ('=' :: (q1 ++ (scenarioQuery.whereValue.data ++ (q2 ++ ws)))) ∧
      ∀ q1' q2', Opt isQuote q1' → Opt isQuote q2' →
        parseQuery ⟨pre ++ ('=' :: (q1' ++ (scenarioQuery.whereValue.data ++ (q2' ++ ws))))⟩ =
          .ok scenarioQuery :=
  ⟨scenario_parse,
    parseQuery_quotes "SELECT LAST(value) FROM cpu WHERE host='a'" scenarioQuery scenario_parse⟩

/-- C13 fails as stated: a value with an opening quote and no closing quote,
and a value between a single and a double quote, are accepted. -/
theorem parseQuery_unbalanced_quotes :
    parseQuery "SELECT LAST(value) FROM cpu WHERE host='a" = .ok ⟨"value", "cpu", "host", "a"⟩ ∧
    parseQuery "SELECT LAST(value) FROM cpu WHERE host='a\"" =
      .ok ⟨"value", "cpu", "host", "a"⟩ := by
  refine ⟨by rfl, by rfl⟩

/-- C19: the translation is not injective: two accepted queries with the
different (metric, column) pairs (`a_b`, `c`) and (`a`, `b_c`) and the same
where predicate give, for every database, the same backend query. -/
theorem promQuery_not_injective :
    parseQuery "SELECT LAST(c) FROM a_b WHERE host='x'" = .ok ⟨"c", "a_b", "host", "x"⟩ ∧
    parseQuery "SELECT LAST(b_c) FROM a WHERE host='x'" = .ok ⟨"b_c", "a", "host", "x"⟩ ∧
    (("a_b" : String), ("c" : String)) ≠ ("a", "b_c") ∧
    (∀ db : String, promQuery ⟨"c", "a_b", "host", "x"⟩ db =
      promQuery ⟨"b_c", "a", "host", "x"⟩ db) ∧
    ∀ db : String, ¬ Function.Injective (fun q : parsedQuery => promQuery q db) := by
  have hp : ∀ db : String, promQuery ⟨"c", "a_b", "host", "x"⟩ db =
      promQuery ⟨"b_c", "a", "host", "x"⟩ db := by
    intro db
    rw [promQuery_eq, promQuery_eq]
    apply String.ext
    simp only [String.data_append, List.append_assoc]
    rfl
  refine ⟨by rfl, by rfl, by decide, hp, ?_⟩
  intro db hinj
  have := hinj (hp db)
  revert this
  decide

/-! ### Texts that cannot have the shape of the pattern -/

theorem startsWith_append : ∀ (w r : List Char), startsWith w (w ++ r) = true
  | [], _ => rfl
  | c :: w, r => by
    simp only [List.cons_append, startsWith, beq_self_eq_true, Bool.true_and]
    exact startsWith_append w r

theorem occursIn_of_startsWith {w l : List Char} (h : startsWith w l = true) :
    occursIn w l = true := by
  cases l with
  | nil => exact h
  | cons d l => simp only [occursIn, h, Bool.true_or]

theorem occursIn_append (w : List Char) : ∀ (a b : List Char), occursIn w (a ++ (w ++ b)) = true
  | [], b => occursIn_of_startsWith (startsWith_append w b)
  | c :: a, b => by
    show (startsWith w (c :: (a ++ (w ++ b))) || occursIn w (a ++ (w ++ b))) = true
    rw [occursIn_append w a b, Bool.or_true]

theorem dropWhile_many {P : Char → Bool} : ∀ {a L : List Char}, Many P a → HeadNot P L →
    (a ++ L).dropWhile P = L
  | [], L, _, hL => by
    obtain ⟨x, r, rfl, hx⟩ := hL
    simp only [List.nil_append, List.dropWhile_cons, hx, Bool.false_eq_true, if_false]
  | c :: a, L, ha, hL => by
    simp only [List.cons_append, List.dropWhile_cons, (many_of_cons ha).1, if_true]
    exact dropWhile_many (many_of_cons ha).2 hL

theorem startsSelectLast_append {w0 w1 : List Char} (h0 : Many isSpace w0)
    (h1 : Many1 isSpace w1) (R : List Char) :
    startsSelectLast (w0 ++ ("SELECT".data ++ (w1 ++ ("LAST(".data ++ R)))) = true := by
  have nS : HeadNot isSpace ("SELECT".data ++ (w1 ++ ("LAST(".data ++ R))) :=
    ⟨'S', _, rfl, rfl⟩
  have nL : HeadNot isSpace ("LAST(".data ++ R) := ⟨'L', _, rfl, rfl⟩
  obtain ⟨hne, hall⟩ := h1
  cases w1 with
  | nil => exact absurd rfl hne
  | cons c w =>
    unfold startsSelectLast
    rw [dropWhile_many h0 nS, startsWith_append]
    show (true && (isSpace c && startsWith "LAST(".data
      ((w ++ ("LAST(".data ++ R)).dropWhile isSpace))) = true
    rw [dropWhile_many (many_of_cons hall).2 nL, (many_of_cons hall).1, startsWith_append]
    rfl

theorem startsSelectLast_text {p : Parts} (hwf : p.WF) : startsSelectLast p.text = true :=
  startsSelectLast_append hwf.ws0 hwf.ws1 _

theorem occursIn_from_text (p : Parts) : occursIn "FROM".data p.text = true := by
  have e : p.text = (p.ws0 ++ ("SELECT".data ++ (p.ws1 ++ ("LAST(".data ++ (p.col ++ (')' ::
      p.ws2)))))) ++ ("FROM".data ++ (p.ws3 ++ (p.met ++ (p.ws4 ++ ("WHERE".data ++ (p.ws5 ++
      (p.key ++ ('=' :: (p.q1 ++ (p.val ++ (p.q2 ++ p.ws6)))))))))))  := by
    simp only [Parts.text, List.append_assoc, List.cons_append]
  rw [e]
  exact occursIn_append _ _ _

theorem occursIn_where_text (p : Parts) : occursIn "WHERE".data p.text = true := by
  have e : p.text = (p.ws0 ++ ("SELECT".data ++ (p.ws1 ++ ("LAST(".data ++ (p.col ++ (')' ::
      (p.ws2 ++ ("FROM".data ++ (p.ws3 ++ (p.met ++ p.ws4))))))))))  ++ ("WHERE".data ++ (p.ws5 ++
      (p.key ++ ('=' :: (p.q1 ++ (p.val ++ (p.q2 ++ p.ws6))))))) := by
    simp only [Parts.text, List.append_assoc, List.cons_append]
  rw [e]
  exact occursIn_append _ _ _

theorem parseQuery_error_of_not_ok {s : String} (h : ∀ x, parseQuery s ≠ .ok x) :
    parseQuery s = .error invalidQueryFormat := by
  cases hp : parseQuery s with
  | error e => rw [parseQuery_error hp]
  | ok x => exact absurd hp (h x)

/-- C11: `parseQuery` fails with the invalid-query-format error, and returns
the empty `parsedQuery` with it, for every text that does not start with
optional whitespace, `SELECT`, whitespace and `LAST(`, or in which `FROM`
does not occur, or in which `WHERE` does not occur. -/
theorem parseQuery_rejects_malformed (s : String)
    (h : startsSelectLast s.data = false ∨ occursIn "FROM".data s.data = false ∨
      occursIn "WHERE".data s.data = false) :
    parseQuery s = .error "Invalid query format - Failed to match" ∧
    parseQueryReturn s = (⟨"", "", "", ""⟩, some "Invalid query format - Failed to match") := by
  have he : parseQuery s = .error invalidQueryFormat := by
    apply parseQuery_error_of_not_ok
    intro x hx
    obtain ⟨p, hwf, hs, _⟩ := parseQuery_sound hx
    rw [hs, startsSelectLast_text hwf, occursIn_from_text, occursIn_where_text] at h
    simp at h
  refine ⟨he, ?_⟩
  unfold parseQueryReturn
  rw [he]
  rfl

/-- Witness of C11: a query with another aggregation than `LAST` and a query
without where clause. -/
theorem parseQuery_rejects_malformed_witness :
    startsSelectLast "SELECT MEAN(value) FROM cpu WHERE host='a'".data = false ∧
    (parseQuery "SELECT MEAN(value) FROM cpu WHERE host='a'" =
        .error "Invalid query format - Failed to match" ∧
      parseQueryReturn "SELECT MEAN(value) FROM cpu WHERE host='a'" =
        (⟨"", "", "", ""⟩, some "Invalid query format - Failed to match")) ∧
    occursIn "WHERE".data "SELECT LAST(value) FROM cpu".data = false ∧
    (parseQuery "SELECT LAST(value) FROM cpu" =
        .error "Invalid query format - Failed to match" ∧
      parseQueryReturn "SELECT LAST(value) FROM cpu" =
        (⟨"", "", "", ""⟩, some "Invalid query format - Failed to match")) :=
  ⟨by decide,
    parseQuery_rejects_malformed "SELECT MEAN(value) FROM cpu WHERE host='a'"
      (Or.inl (by decide)),
    by decide,
    parseQuery_rejects_malformed "SELECT LAST(value) FROM cpu" (Or.inr (Or.inr (by decide)))⟩

/-! ### Whitespace around a text -/

theorem many_append {P : Char → Bool} {a b : List Char} (ha : Many P a) (hb : Many P b) :
    Many P (a ++ b) := by
  intro c hc
  rcases List.mem_append.mp hc with h | h
  · exact ha c h
  · exact hb c h

theorem many_of_append_right {P : Char → Bool} {a b : List Char} (h : Many P (a ++ b)) :
    Many P b :=
  fun c hc => h c (List.mem_append.mpr (Or.inr hc))

/-- A run of a class that starts a text is the start of every longer run of
the class that is followed by a character outside the class. -/
theorem run_split {P : Char → Bool} : ∀ {w a X L : List Char}, Many P w → HeadNot P L →
    w ++ X = a ++ L → ∃ a', a = w ++ a' ∧ X = a' ++ L
  | [], a, X, L, _, _, h => ⟨a, rfl, h⟩
  | c :: w, [], X, L, hw, hL, h => by
    obtain ⟨x, r, rfl, hx⟩ := hL
    simp only [List.cons_append, List.nil_append, List.cons.injEq] at h
    rw [← h.1, (many_of_cons hw).1] at hx
    cases hx
  | c :: w, d :: a, X, L, hw, hL, h => by
    simp only [List.cons_append, List.cons.injEq] at h
    obtain ⟨a', e1, e2⟩ := run_split (many_of_cons hw).2 hL h.2
    exact ⟨a', by rw [h.1, e1]; rfl, e2⟩

theorem headNot_text_tail {p : Parts} (hwf : p.WF) :
    HeadNot isSpace (p.q2.reverse ++ (p.val.reverse ++ (p.q1.reverse ++
      ('=' :: (p.key.reverse ++ p.revBeforeKey))))) := by
  rw [opt_reverse_eq hwf.q2]
  exact headNot_opt hwf.q2 isSpace_of_isQuote
    (headNot_many1 (many1_reverse hwf.val) isSpace_of_isValueChar _)

theorem text_pad (p : Parts) (w1 w2 : List Char) :
    (Parts.mk (w1 ++ p.ws0) p.ws1 p.col p.ws2 p.ws3 p.met p.ws4 p.ws5 p.key p.q1 p.val p.q2
      (p.ws6 ++ w2)).text = w1 ++ (p.text ++ w2) := by
  simp only [Parts.text, List.append_assoc, List.cons_append]

/-- A text between two runs of whitespace has the shape of the pattern
exactly when the text itself has it, with the same four captured pieces. -/
theorem shape_pad {q w1 w2 : List Char} (h1 : Many isSpace w1) (h2 : Many isSpace w2)
    (x : parsedQuery) :
    (∃ p : Parts, p.WF ∧ w1 ++ (q ++ w2) = p.text ∧ x = p.query) ↔
      ∃ p : Parts, p.WF ∧ q = p.text ∧ x = p.query := by
  constructor
  · rintro ⟨p, hwf, hs, rfl⟩
    -- the leading whitespace
    have nS : HeadNot isSpace ("SELECT".data ++ (p.ws1 ++ ("LAST(".data ++ (p.col ++ (')' ::
        (p.ws2 ++ ("FROM".data ++ (p.ws3 ++ (p.met ++ (p.ws4 ++ ("WHERE".data ++ (p.ws5 ++
        (p.key ++ ('=' :: (p.q1 ++ (p.val ++ (p.q2 ++ p.ws6))))))))))))))))) :=
      ⟨'S', _, rfl, rfl⟩
    obtain ⟨a, ea, hq⟩ := run_split h1 nS hs
    have ha : Many isSpace a := many_of_append_right (ea ▸ hwf.ws0)
    -- the trailing whitespace
    have hwf1 : Parts.WF ⟨a, p.ws1, p.col, p.ws2, p.ws3, p.met, p.ws4, p.ws5, p.key, p.q1,
        p.val, p.q2, p.ws6⟩ :=
      ⟨ha, hwf.ws1, hwf.col, hwf.ws2, hwf.ws3, hwf.met, hwf.ws4, hwf.ws5, hwf.key, hwf.q1,
        hwf.val, hwf.q2, hwf.ws6⟩
    have hq1 : q ++ w2 = (Parts.mk a p.ws1 p.col p.ws2 p.ws3 p.met p.ws4 p.ws5 p.key p.q1
        p.val p.q2 p.ws6).text := hq
    have hr := congrArg List.reverse hq1
    rw [List.reverse_append, Parts.text_reverse] at hr
    obtain ⟨b, eb, hqr⟩ := run_split (many_reverse h2) (headNot_text_tail hwf1) hr
    have hb : Many isSpace b := many_of_append_right (eb ▸ many_reverse hwf.ws6)
    refine ⟨⟨a, p.ws1, p.col, p.ws2, p.ws3, p.met, p.ws4, p.ws5, p.key, p.q1, p.val, p.q2,
      b.reverse⟩,
      ⟨ha, hwf.ws1, hwf.col, hwf.ws2, hwf.ws3, hwf.met, hwf.ws4, hwf.ws5, hwf.key, hwf.q1,
        hwf.val, hwf.q2, many_reverse hb⟩, ?_, rfl⟩
    apply List.reverse_injective
    rw [hqr, Parts.text_reverse, List.reverse_reverse]
    rfl
  · rintro ⟨p, hwf, rfl, rfl⟩
    exact ⟨⟨w1 ++ p.ws0, p.ws1, p.col, p.ws2, p.ws3, p.met, p.ws4, p.ws5, p.key, p.q1, p.val,
      p.q2, p.ws6 ++ w2⟩,
      ⟨many_append h1 hwf.ws0, hwf.ws1, hwf.col, hwf.ws2, hwf.ws3, hwf.met, hwf.ws4, hwf.ws5,
        hwf.key, hwf.q1, hwf.val, hwf.q2, many_append hwf.ws6 h2⟩,
      (text_pad p w1 w2).symm, rfl⟩

theorem parseQuery_pad (w1 q w2 : String) (h1 : Many isSpace w1.data)
    (h2 : Many isSpace w2.data) (x : parsedQuery) :
    parseQuery (w1 ++ q ++ w2) = .ok x ↔ parseQuery q = .ok x := by
  rw [parseQuery_ok_iff, parseQuery_ok_iff]
  have e : (w1 ++ q ++ w2).data = w1.data ++ (q.data ++ w2.data) := by
    simp only [String.data_append, List.append_assoc]
  rw [e]
  exact shape_pad h1 h2 x

/-- C18: whitespace before and after a text does not change the parse:
`parseQuery` returns on `w1 ++ q ++ w2` what it returns on `q` (the same
four fields, or the same error), so one succeeds exactly when the other
does. (Whitespace is space, tab, newline, carriage return, form feed.) -/
theorem parseQuery_whitespace (w1 q w2 : String)
    (h1 : ∀ c ∈ w1.data, isSpace c = true) (h2 : ∀ c ∈ w2.data, isSpace c = true) :
    parseQuery (w1 ++ q ++ w2) = parseQuery q ∧
    ((∃ x, parseQuery (w1 ++ q ++ w2) = .ok x) ↔ ∃ x, parseQuery q = .ok x) := by
  have he : parseQuery (w1 ++ q ++ w2) = parseQuery q := by
    cases h : parseQuery q with
    | ok x => exact (parseQuery_pad w1 q w2 h1 h2 x).mpr h
    | error e =>
      rw [parseQuery_error h]
      apply parseQuery_error_of_not_ok
      intro x hx
      rw [(parseQuery_pad w1 q w2 h1 h2 x).mp hx] at h
      cases h
  exact ⟨he, by rw [he]⟩

/-- Witness of C18: the query of scenario 1 between a space and a tab on one
side and a newline on the other. -/
theorem parseQuery_whitespace_witness :
    (∀ c ∈ " \t".data, isSpace c = true) ∧ (∀ c ∈ "\n".data, isSpace c = true) ∧
    parseQuery (" \t" ++ "SELECT LAST(value) FROM cpu WHERE host='a'" ++ "\n") =
      parseQuery "SELECT LAST(value) FROM cpu WHERE host='a'" ∧
    ((∃ x, parseQuery (" \t" ++ "SELECT LAST(value) FROM cpu WHERE host='a'" ++ "\n") = .ok x) ↔
      ∃ x, parseQuery "SELECT LAST(value) FROM cpu WHERE host='a'" = .ok x) :=
  ⟨by decide, by decide,
    parseQuery_whitespace " \t" "SELECT LAST(value) FROM cpu WHERE host='a'" "\n" (by decide)
      (by decide)⟩

/-! ## Properties of the handler -/

theorem ServeHTTP_bad_form_aux (hd : queryHandler) (formatFloat : ℚ → String) (r : Request)
    (hf : r.ParseForm = none)
    (hne : ∀ k vs, r.Form.lookup k = some vs → vs ≠ [])
    (h : r.Form.lookup "db" = none ∨ r.Form.lookup "epoch" = none ∨
      (∃ e es, r.Form.lookup "epoch" = some (e :: es) ∧ e ≠ "s") ∨
      r.Form.lookup "q" = none) :
    ∃ msg, hd.ServeHTTP formatFloat r = ([], httpError msg StatusBadRequest) := by
  cases hdb : r.Form.lookup "db" with
  | none =>
    refine ⟨"Missing `db` field in form data", ?_⟩
    simp only [queryHandler.ServeHTTP, hf, hdb]
  | some db =>
    cases hep : r.Form.lookup "epoch" with
    | none =>
      refine ⟨"Missing `epoch` field in form data", ?_⟩
      simp only [queryHandler.ServeHTTP, hf, hdb, hep]
    | some epoch =>
      cases epoch with
      | nil => exact absurd rfl (hne _ _ hep)
      | cons e es =>
        have hi : index (e :: es) 0 = some e := rfl
        by_cases hs : e = "s"
        · cases hq : r.Form.lookup "q" with
          | none =>
            refine ⟨"Missing `q` field in form data", ?_⟩
            subst hs
            simp only [queryHandler.ServeHTTP, hf, hdb, hep, hi, hq, bne_self_eq_false,
              Bool.false_eq_true, if_false]
          | some qs =>
            exfalso
            rcases h with h | h | ⟨e', es', h, hne'⟩ | h
            · rw [hdb] at h; cases h
            · rw [hep] at h; cases h
            · rw [hep] at h
              cases h
              exact hne' hs
            · rw [hq] at h; cases h
        · refine ⟨"Invalid `epoch` field value in form data", ?_⟩
          have hb : (e != "s") = true := by simpa using hs
          simp only [queryHandler.ServeHTTP, hf, hdb, hep, hi, hb, if_true]

/-- C14: for a form-parsed request (every field present has a value) in which
`db` is absent, or `epoch` is absent, or the first `epoch` value is not `s`,
or `q` is absent, the handler answers 400 with a message and calls neither
`parseQuery` nor the backend. -/
theorem ServeHTTP_bad_form (hd : queryHandler) (formatFloat : ℚ → String) (r : Request)
    (hf : r.ParseForm = none)
    (hne : ∀ k vs, r.Form.lookup k = some vs → vs ≠ [])
    (h : r.Form.lookup "db" = none ∨ r.Form.lookup "epoch" = none ∨
      (∃ e es, r.Form.lookup "epoch" = some (e :: es) ∧ e ≠ "s") ∨
      r.Form.lookup "q" = none) :
    (hd.ServeHTTP formatFloat r).1 = [] ∧
    ∃ msg, (hd.ServeHTTP formatFloat r).2 = .reply 400 (msg ++ "\n") := by
  obtain ⟨msg, e⟩ := ServeHTTP_bad_form_aux hd formatFloat r hf hne h
  rw [e]
  exact ⟨rfl, msg, rfl⟩

/-- Witness of C14: the request of scenario 3, with `epoch=ms`. -/
theorem ServeHTTP_bad_form_witness :
    (∃ e es, (Request.mk none [("db", ["mydb"]), ("epoch", ["ms"]),
      ("q", ["SELECT LAST(value) FROM cpu WHERE host='a'"])]).Form.lookup "epoch" =
        some (e :: es) ∧ e ≠ "s") ∧
    (emptyBackend.ServeHTTP (fun _ => "") ⟨none, [("db", ["mydb"]), ("epoch", ["ms"]),
      ("q", ["SELECT LAST(value) FROM cpu WHERE host='a'"])]⟩).1 = [] ∧
    ∃ msg, (emptyBackend.ServeHTTP (fun _ => "") ⟨none, [("db", ["mydb"]), ("epoch", ["ms"]),
      ("q", ["SELECT LAST(value) FROM cpu WHERE host='a'"])]⟩).2 = .reply 400 (msg ++ "\n") :=
  ⟨⟨"ms", [], rfl, by decide⟩,
    ServeHTTP_bad_form emptyBackend (fun _ => "") ⟨none, [("db", ["mydb"]), ("epoch", ["ms"]),
      ("q", ["SELECT LAST(value) FROM cpu WHERE host='a'"])]⟩ rfl
      (by
        intro k vs hk
        simp only [List.lookup] at hk
        split at hk
        · cases hk; simp
        · split at hk
          · cases hk; simp
          · split at hk
            · cases hk; simp
            · cases hk)
      (Or.inr (Or.inr (Or.inl ⟨"ms", [], rfl, by decide⟩)))⟩

/-- C15: for a request with `db` present, `epoch` equal to `s` and `q` present
whose first `q` value `parseQuery` rejects, the handler answers 400 through
`http.Error` with the parser's invalid-query-format message (the body is the
message and a newline), and the backend is not called. -/
theorem ServeHTTP_unparseable (hd : queryHandler) (formatFloat : ℚ → String) (r : Request)
    (dbs es qs : List String) (q e : String)
    (hf : r.ParseForm = none) (hdb : r.Form.lookup "db" = some dbs)
    (hep : r.Form.lookup "epoch" = some ("s" :: es))
    (hq : r.Form.lookup "q" = some (q :: qs)) (hp : parseQuery q = .error e) :
    hd.ServeHTTP formatFloat r =
      ([.parseQuery q], httpError "Invalid query format - Failed to match" StatusBadRequest) ∧
    (hd.ServeHTTP formatFloat r).2 = .reply 400 "Invalid query format - Failed to match\n" ∧
    ∀ pq, Call.Query pq ∉ (hd.ServeHTTP formatFloat r).1 := by
  have he : e = invalidQueryFormat := parseQuery_error hp
  subst he
  have hi1 : index ("s" :: es) 0 = some "s" := rfl
  have hi2 : index (q :: qs) 0 = some q := rfl
  have h : hd.ServeHTTP formatFloat r =
      ([.parseQuery q], httpError invalidQueryFormat StatusBadRequest) := by
    simp only [queryHandler.ServeHTTP, hf, hdb, hep, hq, hi1, hi2, bne_self_eq_false,
      Bool.false_eq_true, if_false]
    rw [hp]
  rw [h]
  refine ⟨rfl, rfl, ?_⟩
  intro pq hmem
  simp at hmem

/-- Witness of C15: the request of scenario 4, with the aggregation `MEAN`. -/
theorem ServeHTTP_unparseable_witness :
    parseQuery "SELECT MEAN(value) FROM cpu WHERE host='a'" =
      .error "Invalid query format - Failed to match" ∧
    (emptyBackend.ServeHTTP (fun _ => "") ⟨none, [("db", ["mydb"]), ("epoch", ["s"]),
      ("q", ["SELECT MEAN(value) FROM cpu WHERE host='a'"])]⟩).2 =
        .reply 400 "Invalid query format - Failed to match\n" :=
  ⟨by rfl,
    (ServeHTTP_unparseable emptyBackend (fun _ => "") ⟨none, [("db", ["mydb"]),
      ("epoch", ["s"]), ("q", ["SELECT MEAN(value) FROM cpu WHERE host='a'"])]⟩
      ["mydb"] [] [] "SELECT MEAN(value) FROM cpu WHERE host='a'"
      "Invalid query format - Failed to match" rfl rfl rfl rfl (by rfl)).2.1⟩

theorem Sprintf_upstream (e : String) :
    Sprintf "Failed to query upstream - %s" [e] = "Failed to query upstream - " ++ e := by
  apply String.ext
  have h : sprintfAux "Failed to query upstream - %s".data [e] =
      "Failed to query upstream - ".data ++ (e.data ++ []) := rfl
  simp only [Sprintf, h, String.data_append, List.append_nil]

theorem encodeResponse_series (formatFloat : ℚ → String) (query : parsedQuery) (n : Int)
    (v : Float64) :
    encodeResponse formatFloat (seriesResponse query (Float64.ofInt64 n) v) = none ↔
      v.isFinite = false := by
  cases v <;>
    simp [encodeResponse, encodeAll, encodeResult, encodeSeries, encodeFloat, seriesResponse,
      Float64.ofInt64, Float64.isFinite]

theorem encodeResponse_adapter (formatFloat : ℚ → String) (query : parsedQuery) (resp : Value)
    (ir : influxDBV1Response) (h : responseAdapter query resp = .ok ir) :
    encodeResponse formatFloat ir = none ↔
      ∃ ts v, (resp = .Scalar ts v ∨ resp = .Vector [⟨ts, v⟩]) ∧ v.isFinite = false := by
  cases resp with
  | Scalar ts v =>
    have e : ir = seriesResponse query (Float64.ofInt64 (Unix ts)) v := by
      have h' : Except.ok (seriesResponse query (Float64.ofInt64 (Unix ts)) v) = Except.ok ir := h
      cases h'
      rfl
    rw [e, encodeResponse_series]
    constructor
    · intro hv
      exact ⟨ts, v, Or.inl rfl, hv⟩
    · rintro ⟨ts', v', h1 | h1, hv⟩
      · cases h1; exact hv
      · cases h1
  | Vector l =>
    cases l with
    | nil =>
      have h' : Except.ok { Results := [{ StatementID := 0, Series := none }] } = Except.ok ir := h
      cases h'
      constructor
      · intro hn
        simp [encodeResponse, encodeAll, encodeResult] at hn
      · rintro ⟨ts', v', h1 | h1, _⟩ <;> cases h1
    | cons s l =>
      cases l with
      | nil =>
        obtain ⟨ts, v⟩ := s
        have e : ir = seriesResponse query (Float64.ofInt64 (Unix ts)) v := by
          have h' : Except.ok (seriesResponse query (Float64.ofInt64 (Unix ts)) v) =
              Except.ok ir := h
          cases h'
          rfl
        rw [e, encodeResponse_series]
        constructor
        · intro hv
          exact ⟨ts, v, Or.inr rfl, hv⟩
        · rintro ⟨ts', v', h1 | h1, hv⟩
          · cases h1
          · cases h1; exact hv
      | cons s' l =>
        simp [responseAdapter] at h
  | Matrix l => cases h
  | Str ts v => cases h

/-- C16 (as amended): for a valid request, a backend error and a failure of
the response adapter are answered with 500 and the message; a response that
the encoder refuses is aborted after the status 200 is set; when the backend
succeeds, the adapter succeeds and the encoder accepts the response, the
handler answers 200 with the JSON response and a newline, and it answers 200
in no other case; the encoder refuses exactly the responses whose sample
value is NaN or an infinity. -/
theorem ServeHTTP_outcome (hd : queryHandler) (formatFloat : ℚ → String) (r : Request)
    (db q : String) (query : parsedQuery) (h : ValidRequest r db q query) :
    (∀ e, hd.prometheusAPI (promQuery query db) = .error e →
      (hd.ServeHTTP formatFloat r).2 = .reply 500 ("Failed to query upstream - " ++ e ++ "\n")) ∧
    (∀ resp e, hd.prometheusAPI (promQuery query db) = .ok resp →
      responseAdapter query resp = .error e →
      (hd.ServeHTTP formatFloat r).2 = .reply 500 (e ++ "\n")) ∧
    (∀ resp ir, hd.prometheusAPI (promQuery query db) = .ok resp →
      responseAdapter query resp = .ok ir → encodeResponse formatFloat ir = none →
      (hd.ServeHTTP formatFloat r).2 = .aborted 200) ∧
    (∀ resp ir json, hd.prometheusAPI (promQuery query db) = .ok resp →
      responseAdapter query resp = .ok ir → encodeResponse formatFloat ir = some json →
      (hd.ServeHTTP formatFloat r).2 = .reply 200 (json ++ "\n")) ∧
    ((∃ body, (hd.ServeHTTP formatFloat r).2 = .reply 200 body) ↔
      ∃ resp ir json, hd.prometheusAPI (promQuery query db) = .ok resp ∧
        responseAdapter query resp = .ok ir ∧ encodeResponse formatFloat ir = some json) ∧
    (∀ resp ir, responseAdapter query resp = .ok ir →
      (encodeResponse formatFloat ir = none ↔
        ∃ ts v, (resp = .Scalar ts v ∨ resp = .Vector [⟨ts, v⟩]) ∧ v.isFinite = false)) := by
  rw [ServeHTTP_valid hd formatFloat r db q query h]
  have hok : ∀ resp ir json, hd.prometheusAPI (promQuery query db) = .ok resp →
      responseAdapter query resp = .ok ir → encodeResponse formatFloat ir = some json →
      finish formatFloat query (hd.prometheusAPI (promQuery query db)) =
        .reply 200 (json ++ "\n") := by
    intro resp ir json he ha hj
    simp only [he, finish, ha, hj]
    rfl
  refine ⟨?_, ?_, ?_, hok, ?_, fun resp ir => encodeResponse_adapter formatFloat query resp ir⟩
  · intro e he
    simp only [he, finish, Sprintf_upstream]
    rfl
  · intro resp e he ha
    simp only [he, finish, ha]
    rfl
  · intro resp ir he ha hn
    simp only [he, finish, ha, hn]
    rfl
  · constructor
    · rintro ⟨body, hb⟩
      cases he : hd.prometheusAPI (promQuery query db) with
      | error e =>
        simp only [he, finish, httpError, StatusInternalServerError] at hb
        cases hb
      | ok resp =>
        cases ha : responseAdapter query resp with
        | error e =>
          simp only [he, finish, ha, httpError, StatusInternalServerError] at hb
          cases hb
        | ok ir =>
          cases hn : encodeResponse formatFloat ir with
          | none =>
            simp only [he, finish, ha, hn] at hb
            cases hb
          | some json => exact ⟨resp, ir, json, rfl, ha, hn⟩
    · rintro ⟨resp, ir, json, he, ha, hj⟩
      exact ⟨_, hok resp ir json he ha hj⟩

/-- Witness of C16 (as amended): the request of scenario 2, for which the
backend, the adapter and the encoder succeed, is answered 200 with the JSON
response. -/
theorem ServeHTTP_outcome_witness :
    ValidRequest scenarioRequest "mydb" "SELECT LAST(value) FROM cpu WHERE host='a'"
      scenarioQuery ∧
    emptyBackend.prometheusAPI (promQuery scenarioQuery "mydb") = .ok (.Vector []) ∧
    responseAdapter scenarioQuery (.Vector []) =
      .ok { Results := [{ StatementID := 0, Series := none }] } ∧
    encodeResponse (fun _ => "") { Results := [{ StatementID := 0, Series := none }] } =
      some "\x7b\"results\":[\x7b\"statement_id\":0,\"series\":null\x7d]\x7d" ∧
    (emptyBackend.ServeHTTP (fun _ => "") scenarioRequest).2 =
      .reply 200 ("\x7b\"results\":[\x7b\"statement_id\":0,\"series\":null\x7d]\x7d" ++ "\n") :=
  ⟨scenario_valid, rfl, rfl, by decide,
    (ServeHTTP_outcome emptyBackend (fun _ => "") scenarioRequest "mydb"
      "SELECT LAST(value) FROM cpu WHERE host='a'" scenarioQuery scenario_valid).2.2.2.1
      (.Vector []) { Results := [{ StatementID := 0, Series := none }] }
      "\x7b\"results\":[\x7b\"statement_id\":0,\"series\":null\x7d]\x7d" rfl rfl
      (by decide)⟩

/-- C16 fails as stated: when the backend answers the request of scenario 1
with one sample whose value is NaN, the backend query succeeds and the
adapter succeeds, yet the handler does not answer 200 with a JSON response:
the encoder fails and the response is aborted. -/
theorem ServeHTTP_nan_aborted :
    ValidRequest scenarioRequest "mydb" "SELECT LAST(value) FROM cpu WHERE host='a'"
      scenarioQuery ∧
    nanBackend.prometheusAPI (promQuery scenarioQuery "mydb") =
      .ok (.Vector [⟨1700000000000, .nan⟩]) ∧
    responseAdapter scenarioQuery (.Vector [⟨1700000000000, .nan⟩]) =
      .ok (seriesResponse scenarioQuery (Float64.ofInt64 (Unix 1700000000000)) .nan) ∧
    (nanBackend.ServeHTTP (fun _ => "") scenarioRequest).2 = .aborted 200 ∧
    ∀ body, (nanBackend.ServeHTTP (fun _ => "") scenarioRequest).2 ≠ .reply 200 body := by
  have ha : (nanBackend.ServeHTTP (fun _ => "") scenarioRequest).2 = .aborted 200 := by
    decide
  refine ⟨scenario_valid, rfl, rfl, ha, ?_⟩
  intro body hb
  rw [ha] at hb
  cases hb

end IotawattProxy
